import Mathlib

/-!
# Verified model of TinyGo's channel lowering and interrupt lowering

This file gives a shallow embedding of two IR-transformation components of
the TinyGo compiler, and settles a list of claims about them.

* `compiler/channel.go`: lowering of channel operations (send and `select`)
  into runtime calls, together with the out-of-band extraction of `select`
  results (`emitChanSend`, `emitSelect`, `getChanSelectResult`).
* `transform/interrupt.go`: the whole-module interrupt lowering pass
  (`LowerInterrupts`).

IR values built by the lowering are represented syntactically; the stream of
side-effecting builder operations (allocas, stores, runtime calls, lifetime
markers) is recorded as an emission trace.  Operations that would fault
inside LLVM on malformed input (e.g. `SExtValue` on a non-integer constant,
or using the zero `llvm.Value` obtained from a missing map entry) are
modelled with `Option`, `none` standing for the fault.
-/

namespace TinyGoSpec

/-- LLVM types, distinguished as far as the channel lowering needs them. -/
inductive Ty where
  | i1
  | i8
  | ptr (t : Ty)
  | array (elt : Ty) (n : Nat)
  | named (s : String)
deriving DecidableEq, Repr

/-- The raw byte-pointer type `i8*` (`c.i8ptrType`). -/
def i8ptr : Ty := Ty.ptr Ty.i8

/-- Target data-layout queries (`TargetData.TypeAllocSize` and
`TargetData.ABITypeAlignment`). -/
structure TargetData where
  allocSize : Ty → Nat
  abiAlign : Ty → Nat

/-- IR values as the lowering builds them (constants and instruction
results).  Instruction results that need a fresh identity (allocas, loads,
call results) carry an id drawn from the builder counter. -/
inductive CVal where
  | undef (t : Ty)
  | constNull (t : Ty)
  | constInt (t : Ty) (v : Int)
  | insertValue (agg : CVal) (elt : CVal) (idx : Nat)
  | extractValue (agg : CVal) (idx : Nat)
  | sext (v : CVal) (t : Ty)
  | alloca (id : Nat) (t : Ty)
  | bitcast (v : CVal) (t : Ty)
  | gep (base : CVal) (idxs : List Nat)
  | load (p : CVal) (id : Nat)
  | callResult (id : Nat)
deriving DecidableEq, Repr

/-- One recorded builder side effect. -/
inductive Emit where
  | tempAlloca (id : Nat) (t : Ty)
  | entryAlloca (id : Nat) (t : Ty)
  | setAlignment (id : Nat) (align : Nat)
  | store (v p : CVal)
  | runtimeCall (fn : String) (args : List CVal) (id : Nat)
  | lifetimeEnd (p : CVal) (size : Nat)
deriving DecidableEq, Repr

/-- Whether an emitted operation is a call into the runtime. -/
def Emit.isRuntimeCall : Emit → Bool
  | Emit.runtimeCall _ _ _ => true
  | _ => false

/-- Builder state: a fresh-id counter plus the emission trace so far. -/
structure Builder where
  nextId : Nat
  emits : List Emit
deriving DecidableEq, Repr

/-- Model of `c.createTemporaryAlloca(t, name)`: creates a stack buffer, returning the
alloca, its `i8*` cast and its allocation size. -/
def createTemporaryAlloca (td : TargetData) (t : Ty) (b : Builder) :
    (CVal × CVal × Nat) × Builder :=
  let a := CVal.alloca b.nextId t
  ((a, CVal.bitcast a i8ptr, td.allocSize t),
   ⟨b.nextId + 1, b.emits ++ [Emit.tempAlloca b.nextId t]⟩)

/-- Model of `c.createRuntimeCall(fn, args)`: emits a direct call to the named runtime
function and returns its result value. -/
def createRuntimeCall (fn : String) (args : List CVal) (b : Builder) :
    CVal × Builder :=
  (CVal.callResult b.nextId,
   ⟨b.nextId + 1, b.emits ++ [Emit.runtimeCall fn args b.nextId]⟩)

/-- Per-function compilation state: the select-to-receive-buffer side table
(`frame.selectRecvBuf`), keyed by the identity of the `*ssa.Select`.  The Go
map assigns with last-write-wins; consing the new entry and looking up the
first match has the same semantics. -/
structure Frame where
  selectRecvBuf : List (Nat × CVal)
deriving DecidableEq, Repr

/-- Model of `emitChanSend` (compiler/channel.go): store the value to send into a
fresh stack buffer of its static type, call `runtime.chanSend(ch, buf)`,
then end the buffer's IR lifetime. -/
def emitChanSend (td : TargetData) (ch chanValue : CVal) (valueType : Ty)
    (b : Builder) : Builder :=
  let r := createTemporaryAlloca td valueType b
  let valueAlloca := r.1.1
  let valueAllocaCast := r.1.2.1
  let valueAllocaSize := r.1.2.2
  let b1 : Builder := ⟨r.2.nextId, r.2.emits ++ [Emit.store chanValue valueAlloca]⟩
  let r2 := createRuntimeCall "chanSend" [ch, valueAllocaCast] b1
  ⟨r2.2.nextId, r2.2.emits ++ [Emit.lifetimeEnd valueAllocaCast valueAllocaSize]⟩

/-- One case of a `select` statement (`expr.States`): its direction, the
lowered channel value, and for a receive the channel element type, for a
send the value sent with its static type.  (The remaining `types.ChanDir`
is `panic("unreachable")` in the source.) -/
inductive SelCase where
  | recv (chanVal : CVal) (elemTy : Ty)
  | send (chanVal : CVal) (sendVal : CVal) (sendTy : Ty)
deriving DecidableEq, Repr

/-- The runtime type `chanSelectState` (`c.getLLVMRuntimeType`). -/
def chanSelectStateTy : Ty := Ty.named "chanSelectState"

/-- The per-case loop of `emitSelect`: tracks the running maxima of receive
element size/alignment, whether a receive case exists, and builds the
`chanSelectState` values, emitting an entry-block alloca and a store for
each send payload. -/
def selectCaseStep (td : TargetData) :
    Nat × Nat × Bool × List CVal × Builder → SelCase →
    Nat × Nat × Bool × List CVal × Builder
  | (sz, al, _hasR, sts, b), SelCase.recv ch elemTy =>
      let s := CVal.insertValue (CVal.constNull chanSelectStateTy) ch 0
      (max sz (td.allocSize elemTy), max al (td.abiAlign elemTy), true, sts ++ [s], b)
  | (sz, al, hasR, sts, b), SelCase.send ch v vt =>
      let a := CVal.alloca b.nextId vt
      let s := CVal.insertValue
        (CVal.insertValue (CVal.constNull chanSelectStateTy) ch 0)
        (CVal.bitcast a i8ptr) 1
      (sz, al, hasR, sts ++ [s],
       ⟨b.nextId + 1, b.emits ++ [Emit.entryAlloca b.nextId vt, Emit.store v a]⟩)

/-- The whole per-case loop of `emitSelect`, seeded as in the source
(`recvbufSize = 0`, `recvbufAlign = 0`, `hasReceives = false`). -/
def buildStates (td : TargetData) (cases : List SelCase) (b : Builder) :
    Nat × Nat × Bool × List CVal × Builder :=
  cases.foldl (selectCaseStep td) (0, 0, false, [], b)

/-- The element allocation sizes of the receive cases, in order. -/
def recvSizes (td : TargetData) (cases : List SelCase) : List Nat :=
  cases.filterMap fun c =>
    match c with
    | SelCase.recv _ e => some (td.allocSize e)
    | _ => none

/-- The element ABI alignments of the receive cases, in order. -/
def recvAligns (td : TargetData) (cases : List SelCase) : List Nat :=
  cases.filterMap fun c =>
    match c with
    | SelCase.recv _ e => some (td.abiAlign e)
    | _ => none

/-- Whether at least one receive case exists. -/
def hasRecvCase (cases : List SelCase) : Bool :=
  cases.any fun c =>
    match c with
    | SelCase.recv _ _ => true
    | _ => false

/-- The remainder of `emitSelect` after the per-case loop: allocate the
shared receive buffer (only when a receive case exists, otherwise an undef
placeholder pointer), materialize the states slice, perform the
`chanSelect`/`tryChanSelect` runtime call, end lifetimes, and record the
receive buffer in the side table.  (`chBlockLen` equals `statesLen` in the
source: both are the constant case count.) -/
def emitSelectRest (td : TargetData) (uintptrTy : Ty) (selId : Nat)
    (blocking : Bool) (frame : Frame) (recvbufSize recvbufAlign : Nat)
    (hasReceives : Bool) (selectStates : List CVal) (b : Builder) :
    CVal × Frame × Builder :=
  let recvbufTy := Ty.array Ty.i8 recvbufSize
  let recvbuf : CVal :=
    if hasReceives then CVal.gep (CVal.alloca b.nextId recvbufTy) [0, 0]
    else CVal.undef i8ptr
  let b1 : Builder :=
    if hasReceives then
      ⟨b.nextId + 1, b.emits ++ [Emit.tempAlloca b.nextId recvbufTy,
                                 Emit.setAlignment b.nextId recvbufAlign]⟩
    else b
  let n := selectStates.length
  let statesTy := Ty.array chanSelectStateTy n
  let statesAlloca := CVal.alloca b1.nextId statesTy
  let statesI8 := CVal.bitcast statesAlloca i8ptr
  let statesSize := td.allocSize statesTy
  let b2 : Builder :=
    ⟨b1.nextId + 1,
     b1.emits ++ [Emit.tempAlloca b1.nextId statesTy] ++
       (selectStates.enum.map fun p => Emit.store p.2 (CVal.gep statesAlloca [0, p.1]))⟩
  let statesPtr := CVal.gep statesAlloca [0, 0]
  let statesLen := CVal.constInt uintptrTy n
  let resb : CVal × Builder :=
    if blocking then
      let blockTy := Ty.array (Ty.named "channelBlockedList") n
      let chBlockAlloca := CVal.alloca b2.nextId blockTy
      let chBlockPtr := CVal.gep chBlockAlloca [0, 0]
      let cid := b2.nextId + 1
      (CVal.callResult cid,
       ⟨cid + 1,
        b2.emits ++ [Emit.tempAlloca b2.nextId blockTy,
          Emit.runtimeCall "chanSelect"
            [recvbuf, statesPtr, statesLen, statesLen, chBlockPtr, statesLen, statesLen]
            cid,
          Emit.lifetimeEnd (CVal.bitcast chBlockAlloca i8ptr) (td.allocSize blockTy)]⟩)
    else
      (CVal.callResult b2.nextId,
       ⟨b2.nextId + 1,
        b2.emits ++ [Emit.runtimeCall "tryChanSelect"
          [recvbuf, statesPtr, statesLen, statesLen] b2.nextId]⟩)
  (resb.1, ⟨(selId, recvbuf) :: frame.selectRecvBuf⟩,
   ⟨resb.2.nextId, resb.2.emits ++ [Emit.lifetimeEnd statesI8 statesSize]⟩)

/-- Model of `emitSelect` (compiler/channel.go): lower a `select` statement.  The
degenerate zero-case selects are resolved without building any states; the
general path goes through `buildStates` and `emitSelectRest`.  `intTy` is
`c.intType`, `resultTy` the LLVM type of the select's result tuple, `selId`
the identity of the `*ssa.Select` expression. -/
def emitSelect (td : TargetData) (intTy uintptrTy resultTy : Ty) (selId : Nat)
    (cases : List SelCase) (blocking : Bool) (frame : Frame) (b : Builder) :
    CVal × Frame × Builder :=
  if cases.isEmpty then
    if blocking then
      let r := createRuntimeCall "deadlock" [] b
      (CVal.undef resultTy, frame, r.2)
    else
      (CVal.insertValue (CVal.undef resultTy) (CVal.constInt intTy (-1)) 0,
       frame, b)
  else
    let r := buildStates td cases b
    emitSelectRest td uintptrTy selId blocking frame r.1 r.2.1 r.2.2.1 r.2.2.2.1 r.2.2.2.2

/-- Model of `getChanSelectResult` (compiler/channel.go): resolve an `*ssa.Extract`
on a lowered select.  Index 0 is the chosen case (sign-extended to the
platform int width when narrower), index 1 the ok flag; index ≥ 2 looks the
select's receive buffer up in the side table, casts it to a pointer to the
statically expected type and loads through it.  A missing side-table entry
yields the zero `llvm.Value` in Go and the builder faults on it, modelled
as `none`. -/
def getChanSelectResult (intTy : Ty) (indexWidth intWidth : Nat)
    (frame : Frame) (selId : Nat) (tupleVal : CVal) (index : Nat)
    (expectedTy : Ty) (b : Builder) : Option (CVal × Builder) :=
  if index = 0 then
    let v := CVal.extractValue tupleVal 0
    some (if indexWidth < intWidth then CVal.sext v intTy else v, b)
  else if index = 1 then
    some (CVal.extractValue tupleVal 1, b)
  else
    match frame.selectRecvBuf.lookup selId with
    | none => none
    | some recvbuf =>
        some (CVal.load (CVal.bitcast recvbuf (Ty.ptr expectedTy)) b.nextId,
              ⟨b.nextId + 1, b.emits⟩)

/-- Observation function: the value of field `i` of an aggregate IR value —
the constant folding LLVM itself performs on `extractvalue` of
`insertvalue`/`undef` aggregates. -/
def CVal.field : CVal → Nat → CVal
  | CVal.insertValue agg elt idx, i => if idx = i then elt else agg.field i
  | CVal.undef t, _ => CVal.undef t
  | v, i => CVal.extractValue v i

/-! ## Interrupt lowering (transform/interrupt.go) -/

/-- LLVM constants and values as the interrupt pass inspects them.  Struct
constants appear at the arities the pass touches (the descriptor initializer
is a pair of a pair and a one-field struct).  `inst` is an ordinary
non-constant instruction result. -/
inductive IVal where
  | cInt (v : Int)
  | cGEP (base : IVal) (idxs : List Int)
  | cGlobal (name : String)
  | cFunc (name : String)
  | cPtrToInt (v : IVal)
  | cStructPair (a b : IVal)
  | cStructOne (a : IVal)
  | cNull
  | inst (id : Nat)
deriving DecidableEq, Repr

/-- Model of `v.IsAConstant()` — everything but an ordinary instruction result. -/
def IVal.isConstant : IVal → Bool
  | IVal.inst _ => false
  | _ => true

/-- Model of `v.SExtValue()`: defined only on integer constants; LLVM faults on
anything else. -/
def IVal.intValue : IVal → Option Int
  | IVal.cInt v => some v
  | _ => none

/-- Whether the final handler value is a pointer to a function
(`TypeKind() == Pointer && ElementType().TypeKind() == Function`). -/
def IVal.isFuncPtr : IVal → Bool
  | IVal.cFunc _ => true
  | _ => false

/-- Model of `llvm.ConstExtractValue` on the struct shapes the pass reads; LLVM
faults on any other shape. -/
def extractConst : IVal → List Nat → Option IVal
  | v, [] => some v
  | IVal.cStructPair a _, 0 :: rest => extractConst a rest
  | IVal.cStructPair _ b, 1 :: rest => extractConst b rest
  | IVal.cStructOne a, 0 :: rest => extractConst a rest
  | _, _ => none

/-- A recorded diagnostic (`errorAt`): a source location plus a message. -/
structure Err where
  loc : String
  msg : String
deriving DecidableEq, Repr

/-- A use of an interrupt-handler-descriptor global; the pass only expects
`ptrtoint` constant expressions. -/
inductive IUse where
  | ptrtoint (id : Nat)
  | other (id : Nat)
deriving DecidableEq, Repr

/-- A module global: its name, the name of its value type, whether it is a
constant global, its constant initializer, its literal bytes (for the
read-only string globals read by `getGlobalBytes`), its remaining uses, and
its source location. -/
structure GlobalVar where
  name : String
  typeName : String
  isGlobalConstant : Bool
  init : IVal
  bytes : List Char
  uses : List IUse
  loc : String
deriving DecidableEq, Repr

/-- A use of the `runtime/interrupt.Register` pseudo-function: whether it is
a call instruction, and its first three operands (interrupt number, name
pointer, name length). -/
structure RegUse where
  loc : String
  isCall : Bool
  numOp : IVal
  nameOp : IVal
  lenOp : IVal
deriving DecidableEq, Repr

/-- A use of the `runtime/interrupt.use` pseudo-function. -/
structure UseUse where
  loc : String
  isCall : Bool
deriving DecidableEq, Repr

/-- Instructions of synthesized functions: forwarding calls, void returns,
and the dispatcher's switch. -/
inductive Inst where
  | call (callee : IVal) (args : List IVal)
  | retVoid
  | switch (cases : List (Int × String)) (dflt : String)
deriving DecidableEq, Repr

/-- A basic block of a function. -/
structure Block where
  bname : String
  instrs : List Inst
deriving DecidableEq, Repr

/-- A module function.  `sigVoidVoid` records whether its type is the fixed
`void()` interrupt-entry signature; `blocks = []` means a declaration
(`fn.IsDeclaration()`). -/
structure Fn where
  name : String
  sigVoidVoid : Bool
  blocks : List Block
  unnamedAddr : Bool
  sectionName : String
  internal : Bool
  callConv : Nat
  pos : Option String
deriving DecidableEq, Repr

/-- A module, as far as the pass reads and rewrites it.
`hasSoftwareVectoring` is
`hasUses(mod.NamedFunction("runtime.callInterruptHandler"))`. -/
structure Module where
  target : String
  registerUses : List RegUse
  useUses : List UseUse
  globals : List GlobalVar
  funcs : List Fn
  hasSoftwareVectoring : Bool
deriving DecidableEq, Repr

/-- Phase A state: the interrupt name table (`handlerNames`, last write
wins, hence consing plus first-match lookup), the `Register` uses left in
the module, and the diagnostics recorded so far. -/
structure PhaseASt where
  names : List (Int × String)
  kept : List RegUse
  errs : List Err
deriving DecidableEq, Repr

/-- Keep a malformed `Register` use, recording a diagnostic. -/
def keepRegUse (st : PhaseASt) (u : RegUse) (msg : String) : PhaseASt :=
  { st with errs := st.errs ++ [⟨u.loc, msg⟩], kept := st.kept ++ [u] }

/-- One iteration of the Phase A loop over `runtime/interrupt.Register`
uses: validate the call shape, extract the literal name bytes, record
`number -> name` and erase the call; a use failing a shape check is kept in
the module with a diagnostic.  `none` models an LLVM fault (`SExtValue` on
a non-integer constant, `IsGlobalConstant` on a function, a Go slice
out-of-range panic). -/
def registerStep (globals : List GlobalVar) (st : PhaseASt) (u : RegUse) :
    Option PhaseASt :=
  if ¬u.isCall then
    some (keepRegUse st u "expected a call to runtime/interrupt.Register?")
  else if ¬u.numOp.isConstant then
    some (keepRegUse st u "non-constant interrupt number?")
  else
    match u.nameOp with
    | IVal.cGEP base _ =>
        (match base with
         | IVal.cGlobal gname =>
             match globals.find? (fun g => g.name = gname) with
             | none => none
             | some g =>
                 if ¬g.isGlobalConstant ∨ ¬u.lenOp.isConstant then
                   some (keepRegUse st u "non-constant interrupt name?")
                 else
                   match u.numOp.intValue, u.lenOp.intValue with
                   | some num, some len =>
                       if 0 ≤ len ∧ len.toNat ≤ g.bytes.length then
                         some { st with
                           names := (num, String.mk (g.bytes.take len.toNat)) :: st.names }
                       else none
                   | _, _ => none
         | IVal.cFunc _ => none
         | _ => some (keepRegUse st u "non-constant interrupt name?"))
    | _ => some (keepRegUse st u "expected a string operand?")

/-- The per-descriptor outcome of Phase B (observable bookkeeping: whether
the wrapper was synthesized and the descriptor erased, or the descriptor
was skipped as a harmless duplicate, or skipped with a diagnostic). -/
inductive Outcome where
  | synthesized
  | duplicateSkip
  | errorSkip
deriving DecidableEq, Repr

/-- Phase B state: the module's functions, the software-vector table, the
diagnostics, the descriptor globals not erased, and the per-descriptor
outcomes. -/
structure BSt where
  funcs : List Fn
  sv : List (Int × String)
  errs : List Err
  kept : List GlobalVar
  outcomes : List (String × Outcome)
deriving DecidableEq, Repr

/-- Record a diagnostic and skip the descriptor (which then stays in the
module). -/
def skipErr (st : BSt) (g : GlobalVar) (e : Err) : BSt :=
  { st with errs := st.errs ++ [e], kept := st.kept ++ [g],
            outcomes := st.outcomes ++ [(g.name, Outcome.errorSkip)] }

/-- The deterministic placeholder handler name synthesized for a
software-vectored interrupt number
(`"runtime/interrupt.interruptHandler" + strconv.FormatInt(num, 10)`). -/
def placeholderName (num : Int) : String :=
  "runtime/interrupt.interruptHandler" ++ toString num

/-- The fresh `void()` handler declaration created by `llvm.AddFunction`. -/
def newHandlerDecl (name : String) : Fn :=
  ⟨name, true, [], false, "", false, 0, none⟩

/-- The message of a true redeclaration error, naming the previous
definition's location when known (`getPosition(fn)`). -/
def redeclMsg (name : String) (fn : Fn) : String :=
  name ++ " redeclared in this program" ++
    (match fn.pos with
     | some p => "\n\tprevious declaration at " ++ p
     | none => "")

/-- Model of `strings.HasPrefix(mod.Target(), "avr")`. -/
def isAVR (target : String) : Bool :=
  target.data.take 3 = ['a', 'v', 'r']

/-- Synthesize the wrapper body into a (previously declared or fresh)
handler function: unnamed address, a section named after the symbol, the
AVR_SIGNAL calling convention (85) when targeting AVR, internal linkage
when software-vectored, and one entry block holding the forwarding call
`handler(num, context, null)` followed by a void return. -/
def synthFn (base : Fn) (name : String) (isSW : Bool)
    (fptr numC ctx : IVal) (target : String) : Fn :=
  { base with
    unnamedAddr := true,
    sectionName := ".text." ++ name,
    internal := if isSW then true else base.internal,
    callConv := if isAVR target then 85 else base.callConv,
    blocks := [⟨"entry", [Inst.call fptr [numC, ctx, IVal.cNull], Inst.retVoid]⟩] }

/-- Whether an existing handler's first instruction is a call with identical
operands: operand count 4 (three arguments plus the callee), the same
called value, the same interrupt-number constant as operand 0 and the same
context as operand 1. -/
def identicalCall (i : Inst) (fptr numC ctx : IVal) : Bool :=
  match i with
  | Inst.call callee args =>
      args.length + 1 == 4 && callee == fptr &&
        args.head? == some numC && args[1]? == some ctx
  | _ => false

/-- Model of `fn.FirstBasicBlock().FirstInstruction()`. -/
def firstInst (fn : Fn) : Option Inst :=
  fn.blocks.head?.bind fun blk => blk.instrs.head?

/-- The diagnostics produced while rewriting a descriptor global's remaining
uses: each use that is not a `ptrtoint` constant expression yields an
internal error located at the global; the `ptrtoint` uses are replaced by
the literal interrupt number. -/
def useRewriteErrs (g : GlobalVar) : List Err :=
  g.uses.filterMap fun u =>
    match u with
    | IUse.ptrtoint _ => none
    | IUse.other _ => some ⟨g.loc, "internal error: expected a ptrtoint"⟩

/-- Unwrap one layer of `ptrtoint`-of-`runtime.funcValueWithSignature`
indirection (the IR shape produced by switch-based func lowering), or
report the internal error the pass records for a shape that does not match.
`none` models an LLVM fault (`Initializer()` on a function, a malformed
initializer, an operand naming no module global). -/
def unwrapFuncPtr (allGlobals : List GlobalVar) (fptr : IVal) :
    Option (Except Err IVal) :=
  match fptr with
  | IVal.cPtrToInt inner =>
      match inner with
      | IVal.cGlobal gname =>
          match allGlobals.find? (fun gl => gl.name = gname) with
          | none => none
          | some gl =>
              if gl.typeName ≠ "runtime.funcValueWithSignature" then
                some (Except.error ⟨gl.loc,
                  "internal error: func lowering global has unexpected type"⟩)
              else
                match extractConst gl.init [0] with
                | none => none
                | some (IVal.cPtrToInt q) => some (Except.ok q)
                | some _ => some (Except.error ⟨gl.loc,
                    "internal error: func lowering global has unexpected func ptr type"⟩)
      | IVal.cFunc _ => none
      | _ => some (Except.error ⟨"",
          "internal error: expected a global for func lowering"⟩)
  | _ => some (Except.ok fptr)

/-- Process one interrupt-handler-descriptor global (the Phase B loop body
of `LowerInterrupts`): extract the interrupt number (field path `{1,0}`),
resolve the handler name from the name table or synthesize a placeholder
under software vectoring (else record a diagnostic and skip), extract the
context (`{0,0}`) and func pointer (`{0,1}`), unwrap switch-lowered
indirection, and look up or create the named `void()` wrapper: an existing
function with another signature, or defined with different content, is a
redeclaration error; an identical already-defined wrapper is a harmless
duplicate and the descriptor is skipped (and not erased); otherwise the
wrapper body is synthesized, the descriptor's `ptrtoint` uses are replaced
by the literal number (non-`ptrtoint` uses yield internal errors) and the
descriptor global is erased. -/
def processHandler (allGlobals : List GlobalVar) (names : List (Int × String))
    (hasSW : Bool) (target : String) (st : BSt) (g : GlobalVar) :
    Option BSt :=
  match extractConst g.init [1, 0] with
  | none => none
  | some numC =>
  match numC.intValue with
  | none => none
  | some num =>
  let rawName := (names.lookup num).getD ""
  if rawName = "" ∧ ¬hasSW then
    some (skipErr st g
      ⟨g.loc, "cannot find interrupt name for number " ++ toString num⟩)
  else
    let isSW := rawName == ""
    let name := if rawName = "" then placeholderName num else rawName
    match extractConst g.init [0, 0] with
    | none => none
    | some ctx =>
    match extractConst g.init [0, 1] with
    | none => none
    | some fptr0 =>
    if ¬ctx.isConstant ∨ ¬fptr0.isConstant then
      some (skipErr st g ⟨g.loc, "func value must be constant"⟩)
    else
      match unwrapFuncPtr allGlobals fptr0 with
      | none => none
      | some (Except.error e) => some (skipErr st g e)
      | some (Except.ok fptr) =>
        if ¬fptr.isFuncPtr then
          some (skipErr st g
            ⟨g.loc, "internal error: unexpected LLVM types in func value"⟩)
        else
          match st.funcs.find? (fun f => f.name = name) with
          | some fn =>
              if ¬fn.sigVoidVoid then
                some (skipErr st g
                  ⟨g.loc, name ++ " redeclared with a different signature"⟩)
              else if ¬fn.blocks.isEmpty then
                if (firstInst fn).any (fun i => identicalCall i fptr numC ctx) then
                  some { st with
                           kept := st.kept ++ [g],
                           outcomes := st.outcomes ++ [(g.name, Outcome.duplicateSkip)] }
                else
                  some (skipErr st g ⟨g.loc, redeclMsg name fn⟩)
              else
                some { st with
                         funcs := st.funcs.map fun f =>
                           if f.name = name then
                             synthFn f name isSW fptr numC ctx target
                           else f,
                         sv := if isSW then (num, name) :: st.sv else st.sv,
                         errs := st.errs ++ useRewriteErrs g,
                         outcomes := st.outcomes ++ [(g.name, Outcome.synthesized)] }
          | none =>
              some { st with
                       funcs := st.funcs ++
                         [synthFn (newHandlerDecl name) name isSW fptr numC ctx target],
                       sv := if isSW then (num, name) :: st.sv else st.sv,
                       errs := st.errs ++ useRewriteErrs g,
                       outcomes := st.outcomes ++ [(g.name, Outcome.synthesized)] }

/-- The Phase B state after synthesizing a brand-new handler function
(`fn.IsNil()` branch: `AddFunction` and then the wrapper body); this is the
value `processHandler` computes on that path, named so the theorems below
can speak about it. -/
def synthFresh (st : BSt) (g : GlobalVar) (num : Int) (name : String)
    (isSW : Bool) (fptr ctx : IVal) (target : String) : BSt :=
  { st with
      funcs := st.funcs ++
        [synthFn (newHandlerDecl name) name isSW fptr (IVal.cInt num) ctx target],
      sv := if isSW then (num, name) :: st.sv else st.sv,
      errs := st.errs ++ useRewriteErrs g,
      outcomes := st.outcomes ++ [(g.name, Outcome.synthesized)] }

/-- Dispatcher synthesis: fill `runtime.callInterruptHandler` with a switch
over the interrupt-number parameter, one case per recorded interrupt number
in ascending order, each case block calling the corresponding forwarding
function and returning, a default block that just returns, and mark the
dispatcher internal and unnamed-address.  (`sort.Slice` ascending over the
Go map's key set is modelled by `insertionSort` over the deduplicated
keys.) -/
def dispatcherFn (sv : List (Int × String)) (decl : Fn) : Fn :=
  let ids := ((sv.map Prod.fst).dedup).insertionSort (· ≤ ·)
  { decl with
    blocks :=
      ⟨"entry",
       [Inst.switch (ids.map fun id => (id, "interrupt" ++ toString id))
         "default"]⟩ ::
      ⟨"default", [Inst.retVoid]⟩ ::
      ids.map (fun id =>
        ⟨"interrupt" ++ toString id,
         [Inst.call (IVal.cFunc ((sv.lookup id).getD "")) [], Inst.retVoid]⟩),
    internal := true,
    unnamedAddr := true }

/-- One iteration of the Phase C loop: remove a `runtime/interrupt.use`
call; a non-call use is an internal error and stays. -/
def useStep (st : List UseUse × List Err) (u : UseUse) :
    List UseUse × List Err :=
  if u.isCall then st
  else (st.1 ++ [u],
        st.2 ++ [⟨u.loc, "internal error: expected call to runtime/interrupt.use"⟩])

/-- The result of a full run of the pass: the rewritten module, the
accumulated diagnostics, and the per-descriptor outcomes. -/
structure LowerResult where
  module : Module
  errs : List Err
  outcomes : List (String × Outcome)
deriving DecidableEq, Repr

/-- When software vectoring is in use, replace the (necessarily present)
`runtime.callInterruptHandler` declaration by the synthesized dispatcher;
`none` models the fault of building into a nil function. -/
def applyDispatcher (hasSW : Bool) (fs : List Fn) (sv : List (Int × String)) :
    Option (List Fn) :=
  if hasSW then
    match fs.find? (fun f => f.name = "runtime.callInterruptHandler") with
    | none => none
    | some decl =>
        some (fs.map fun f =>
          if f.name = "runtime.callInterruptHandler" then dispatcherFn sv decl
          else f)
  else some fs

/-- Model of `LowerInterrupts` (transform/interrupt.go): the whole-module pass.
Phase A scans `runtime/interrupt.Register` calls into the name table;
Phase B processes every global of type `runtime/interrupt.handle`;
dispatcher synthesis runs when software vectoring is in use; Phase C
removes `runtime/interrupt.use` calls.  `none` models an LLVM fault on
malformed IR. -/
def LowerInterrupts (m : Module) : Option LowerResult :=
  match m.registerUses.foldlM (registerStep m.globals) ⟨[], [], []⟩ with
  | none => none
  | some a =>
    match (m.globals.filter fun g =>
        g.typeName = "runtime/interrupt.handle").foldlM
        (processHandler m.globals a.names m.hasSoftwareVectoring m.target)
        ⟨m.funcs, [], [], [], []⟩ with
    | none => none
    | some bs =>
      match applyDispatcher m.hasSoftwareVectoring bs.funcs bs.sv with
      | none => none
      | some funcs2 =>
        some {
          module := { m with
            registerUses := a.kept,
            useUses := (m.useUses.foldl useStep ([], [])).1,
            globals := (m.globals.filter fun g =>
              g.typeName ≠ "runtime/interrupt.handle") ++ bs.kept,
            funcs := funcs2 },
          errs := a.errs ++ bs.errs ++ (m.useUses.foldl useStep ([], [])).2,
          outcomes := bs.outcomes }

/-! ### Concrete instances used by witnesses and counterexamples -/

/-- A well-formed interrupt-handler descriptor for interrupt 5 with handler
`h` and a null context. -/
def gA : GlobalVar :=
  ⟨"gA", "runtime/interrupt.handle", true,
   IVal.cStructPair (IVal.cStructPair IVal.cNull (IVal.cFunc "h"))
     (IVal.cStructOne (IVal.cInt 5)), [], [IUse.ptrtoint 0], "gAloc"⟩

/-- A second, identical descriptor (same number, context and handler). -/
def gB : GlobalVar :=
  ⟨"gB", "runtime/interrupt.handle", true,
   IVal.cStructPair (IVal.cStructPair IVal.cNull (IVal.cFunc "h"))
     (IVal.cStructOne (IVal.cInt 5)), [], [IUse.ptrtoint 1], "gBloc"⟩

/-- The undefined dispatcher declaration present in a module that uses
software vectoring. -/
def dispDecl : Fn :=
  ⟨"runtime.callInterruptHandler", false, [], false, "", false, 0, none⟩

/-- The dispatcher after synthesis for the single number 5. -/
def dispFilled : Fn :=
  ⟨"runtime.callInterruptHandler", false,
   [⟨"entry", [Inst.switch [(5, "interrupt5")] "default"]⟩,
    ⟨"default", [Inst.retVoid]⟩,
    ⟨"interrupt5",
     [Inst.call (IVal.cFunc "runtime/interrupt.interruptHandler5") [],
      Inst.retVoid]⟩],
   true, "", true, 0, none⟩

/-- The software-vectored wrapper synthesized for descriptor `gA`. -/
def wrapper5 : Fn :=
  ⟨"runtime/interrupt.interruptHandler5", true,
   [⟨"entry",
     [Inst.call (IVal.cFunc "h") [IVal.cInt 5, IVal.cNull, IVal.cNull],
      Inst.retVoid]⟩],
   true, ".text.runtime/interrupt.interruptHandler5", true, 0, none⟩

/-- C2's counterexample module: a non-call `Register` use, a non-call `use`
use, and two identical descriptors, under software vectoring. -/
def C2cexM : Module :=
  ⟨"thumbv7m",
   [⟨"rbad", false, IVal.cNull, IVal.cNull, IVal.cNull⟩],
   [⟨"ubad", false⟩],
   [gA, gB], [dispDecl], true⟩

/-- The full result of running the pass on `C2cexM`. -/
def C2cexR : LowerResult :=
  ⟨⟨"thumbv7m",
    [⟨"rbad", false, IVal.cNull, IVal.cNull, IVal.cNull⟩],
    [⟨"ubad", false⟩],
    [gB], [dispFilled, wrapper5], true⟩,
   [⟨"rbad", "expected a call to runtime/interrupt.Register?"⟩,
    ⟨"ubad", "internal error: expected call to runtime/interrupt.use"⟩],
   [("gA", Outcome.synthesized), ("gB", Outcome.duplicateSkip)]⟩

/-- C2's witness module: an error-free run that still keeps the duplicate
descriptor `gB`. -/
def C2wM : Module :=
  ⟨"thumbv7m", [], [], [gA, gB], [dispDecl], true⟩

/-- The full result of running the pass on `C2wM`. -/
def C2wR : LowerResult :=
  ⟨⟨"thumbv7m", [], [], [gB], [dispFilled, wrapper5], true⟩,
   [], [("gA", Outcome.synthesized), ("gB", Outcome.duplicateSkip)]⟩

/-- An already-defined interrupt handler whose body is the forwarding call
for interrupt 5 to `hf` with null context. -/
def C3fn : Fn :=
  ⟨"isrX", true,
   [⟨"entry",
     [Inst.call (IVal.cFunc "hf") [IVal.cInt 5, IVal.cNull, IVal.cNull],
      Inst.retVoid]⟩],
   true, ".text.isrX", false, 0, none⟩

/-- A Phase B state already holding `C3fn`. -/
def C3st : BSt := ⟨[C3fn], [], [], [], []⟩

/-- A descriptor identical in content to what `C3fn` was synthesized
from. -/
def C3g : GlobalVar :=
  ⟨"gC3", "runtime/interrupt.handle", true,
   IVal.cStructPair (IVal.cStructPair IVal.cNull (IVal.cFunc "hf"))
     (IVal.cStructOne (IVal.cInt 5)), [], [], "gC3loc"⟩

/-- A descriptor for interrupt 6 whose number has no name-table entry. -/
def C8g : GlobalVar :=
  ⟨"gC8", "runtime/interrupt.handle", true,
   IVal.cStructPair (IVal.cStructPair IVal.cNull (IVal.cFunc "hf8"))
     (IVal.cStructOne (IVal.cInt 6)), [], [], "gC8loc"⟩

/-- A descriptor for interrupt 7 with one non-`ptrtoint` use. -/
def C10g : GlobalVar :=
  ⟨"gC10", "runtime/interrupt.handle", true,
   IVal.cStructPair (IVal.cStructPair IVal.cNull (IVal.cFunc "hf10"))
     (IVal.cStructOne (IVal.cInt 7)), [], [IUse.other 9], "gC10loc"⟩

/-- The empty Phase B state. -/
def emptyBSt : BSt := ⟨[], [], [], [], []⟩

/-- C1, counterexample: a select with zero cases and `blocking = false` does
not return `{chosenIndex = -1, ok = false}` as claimed — the chosen-index
field is the all-ones constant, but the ok field (field 1) is left `undef`
(only field 0 is ever inserted into the result tuple), not the `false`
constant. -/
theorem C1_counterexample :
    ((emitSelect ⟨fun _ => 1, fun _ => 1⟩ (Ty.named "i32") (Ty.named "uintptr")
        (Ty.named "selres") 0 [] false ⟨[]⟩ ⟨0, []⟩).1.field 1 ≠
      CVal.constInt Ty.i1 0) ∧
    (emitSelect ⟨fun _ => 1, fun _ => 1⟩ (Ty.named "i32") (Ty.named "uintptr")
        (Ty.named "selres") 0 [] false ⟨[]⟩ ⟨0, []⟩).1.field 1 =
      CVal.undef (Ty.named "selres") := by
  constructor
  · decide
  · decide

/-- C1 (amended): for a select lowering with zero cases and
`blocking = false`, `emitSelect` returns a tuple whose chosen-index field is
the all-ones constant `-1` and whose ok field is left undefined (`undef`,
never inserted), and it emits nothing — in particular no runtime call. -/
theorem C1_amended (td : TargetData) (intTy uintptrTy resultTy : Ty)
    (selId : Nat) (frame : Frame) (b : Builder) :
    emitSelect td intTy uintptrTy resultTy selId [] false frame b =
      (CVal.insertValue (CVal.undef resultTy) (CVal.constInt intTy (-1)) 0,
       frame, b) ∧
    (emitSelect td intTy uintptrTy resultTy selId [] false frame b).2.2.emits
      = b.emits := by
  constructor <;> simp [emitSelect]

/-- C7: `emitChanSend` stores the sent value into a freshly created stack
buffer of the value's static type, then emits exactly one runtime call
`chanSend(channel, bufferAddress)`, then immediately ends that buffer's IR
lifetime after the call.  The emission delta is exactly: temporary alloca of
the value's type, store of the value into it, the `chanSend` call taking the
channel and the buffer address, and the lifetime end of that same buffer. -/
theorem C7_emitChanSend (td : TargetData) (ch chanValue : CVal)
    (valueType : Ty) (b : Builder) :
    emitChanSend td ch chanValue valueType b =
      ⟨b.nextId + 2,
       b.emits ++
         [Emit.tempAlloca b.nextId valueType,
          Emit.store chanValue (CVal.alloca b.nextId valueType),
          Emit.runtimeCall "chanSend"
            [ch, CVal.bitcast (CVal.alloca b.nextId valueType) i8ptr]
            (b.nextId + 1),
          Emit.lifetimeEnd (CVal.bitcast (CVal.alloca b.nextId valueType) i8ptr)
            (td.allocSize valueType)]⟩ ∧
    ([Emit.tempAlloca b.nextId valueType,
      Emit.store chanValue (CVal.alloca b.nextId valueType),
      Emit.runtimeCall "chanSend"
        [ch, CVal.bitcast (CVal.alloca b.nextId valueType) i8ptr]
        (b.nextId + 1),
      Emit.lifetimeEnd (CVal.bitcast (CVal.alloca b.nextId valueType) i8ptr)
        (td.allocSize valueType)].countP Emit.isRuntimeCall) = 1 := by
  refine ⟨?_, ?_⟩
  · simp [emitChanSend, createTemporaryAlloca, createRuntimeCall]
  · simp [List.countP, List.countP.go, Emit.isRuntimeCall]

/-! ### Helper lemmas about the select-case fold -/

theorem seed_le_foldl_max (l : List Nat) (a : Nat) : a ≤ l.foldl max a := by
  induction l generalizing a with
  | nil => exact le_refl a
  | cons y ys ih => exact le_trans (le_max_left a y) (ih (max a y))

theorem le_foldl_max (l : List Nat) (a : Nat) : ∀ x ∈ l, x ≤ l.foldl max a := by
  induction l generalizing a with
  | nil => intro x hx; simp at hx
  | cons y ys ih =>
    intro x hx
    rcases List.mem_cons.mp hx with h | h
    · subst h
      exact le_trans (le_max_right a x) (seed_le_foldl_max ys (max a x))
    · exact ih (max a y) x h

theorem foldl_max_mem (l : List Nat) (a : Nat) :
    l.foldl max a = a ∨ l.foldl max a ∈ l := by
  induction l generalizing a with
  | nil => left; rfl
  | cons y ys ih =>
    rcases ih (max a y) with h | h
    · rcases max_choice a y with h2 | h2
      · left
        simpa [h2] using h
      · right
        simp only [List.foldl_cons]
        rw [h, h2]
        exact List.mem_cons_self _ _
    · right
      exact List.mem_cons_of_mem _ h

theorem selectFold_sz (td : TargetData) (cases : List SelCase) :
    ∀ sz al hasR sts b,
      (List.foldl (selectCaseStep td) (sz, al, hasR, sts, b) cases).1 =
        (recvSizes td cases).foldl max sz := by
  induction cases with
  | nil => intro sz al hasR sts b; rfl
  | cons c cs ih =>
    intro sz al hasR sts b
    cases c with
    | recv ch e =>
        simpa [selectCaseStep, recvSizes, List.filterMap_cons] using
          ih (max sz (td.allocSize e)) (max al (td.abiAlign e)) true _ b
    | send ch v vt =>
        simpa [selectCaseStep, recvSizes, List.filterMap_cons] using
          ih sz al hasR _ _

theorem selectFold_al (td : TargetData) (cases : List SelCase) :
    ∀ sz al hasR sts b,
      (List.foldl (selectCaseStep td) (sz, al, hasR, sts, b) cases).2.1 =
        (recvAligns td cases).foldl max al := by
  induction cases with
  | nil => intro sz al hasR sts b; rfl
  | cons c cs ih =>
    intro sz al hasR sts b
    cases c with
    | recv ch e =>
        simpa [selectCaseStep, recvAligns, List.filterMap_cons] using
          ih (max sz (td.allocSize e)) (max al (td.abiAlign e)) true _ b
    | send ch v vt =>
        simpa [selectCaseStep, recvAligns, List.filterMap_cons] using
          ih sz al hasR _ _

theorem selectFold_hasR (td : TargetData) (cases : List SelCase) :
    ∀ sz al hasR sts b,
      (List.foldl (selectCaseStep td) (sz, al, hasR, sts, b) cases).2.2.1 =
        (hasR || hasRecvCase cases) := by
  induction cases with
  | nil => intro sz al hasR sts b; simp [hasRecvCase]
  | cons c cs ih =>
    intro sz al hasR sts b
    cases c with
    | recv ch e =>
        simp only [List.foldl_cons, selectCaseStep]
        rw [ih]
        simp [hasRecvCase, List.any_cons]
    | send ch v vt =>
        simp only [List.foldl_cons, selectCaseStep]
        rw [ih]
        simp [hasRecvCase, List.any_cons]

theorem selectFold_emits (td : TargetData) (cases : List SelCase) :
    ∀ sz al hasR sts b, ∃ Δ,
      (List.foldl (selectCaseStep td) (sz, al, hasR, sts, b) cases).2.2.2.2.emits =
        b.emits ++ Δ ∧
      ∀ e ∈ Δ, (∃ id t, e = Emit.entryAlloca id t) ∨ ∃ v p, e = Emit.store v p := by
  induction cases with
  | nil => intro sz al hasR sts b; exact ⟨[], by simp, by simp⟩
  | cons c cs ih =>
    intro sz al hasR sts b
    cases c with
    | recv ch e =>
        obtain ⟨Δ, h1, h2⟩ := ih (max sz (td.allocSize e)) (max al (td.abiAlign e)) true
          (sts ++ [CVal.insertValue (CVal.constNull chanSelectStateTy) ch 0]) b
        refine ⟨Δ, ?_, h2⟩
        simpa [selectCaseStep] using h1
    | send ch v vt =>
        obtain ⟨Δ, h1, h2⟩ := ih sz al hasR
          (sts ++ [CVal.insertValue
            (CVal.insertValue (CVal.constNull chanSelectStateTy) ch 0)
            (CVal.bitcast (CVal.alloca b.nextId vt) i8ptr) 1])
          ⟨b.nextId + 1, b.emits ++ [Emit.entryAlloca b.nextId vt,
            Emit.store v (CVal.alloca b.nextId vt)]⟩
        refine ⟨[Emit.entryAlloca b.nextId vt, Emit.store v (CVal.alloca b.nextId vt)] ++ Δ,
          ?_, ?_⟩
        · simp only [List.foldl_cons, selectCaseStep]
          rw [h1]
          simp
        · intro e he
          rcases List.mem_append.mp he with h | h
          · rcases List.mem_cons.mp h with h | h
            · exact Or.inl ⟨b.nextId, vt, h⟩
            · simp only [List.mem_singleton] at h
              exact Or.inr ⟨v, CVal.alloca b.nextId vt, h⟩
          · exact h2 e h

/-! ### Helper lemmas about `emitSelectRest` -/

theorem emitSelectRest_frame (td : TargetData) (uintptrTy : Ty) (selId : Nat)
    (blocking : Bool) (frame : Frame) (sz al : Nat) (hasR : Bool)
    (sts : List CVal) (b : Builder) :
    ∃ recvbuf,
      (emitSelectRest td uintptrTy selId blocking frame sz al hasR sts b).2.1 =
        ⟨(selId, recvbuf) :: frame.selectRecvBuf⟩ ∧
      ∃ rest cid,
        Emit.runtimeCall (if blocking then "chanSelect" else "tryChanSelect")
            (recvbuf :: rest) cid ∈
          (emitSelectRest td uintptrTy selId blocking frame sz al hasR sts b).2.2.emits := by
  cases hasR <;> cases blocking
  · exact ⟨CVal.undef i8ptr, rfl,
      [CVal.gep (CVal.alloca b.nextId (Ty.array chanSelectStateTy sts.length)) [0, 0],
       CVal.constInt uintptrTy sts.length, CVal.constInt uintptrTy sts.length],
      b.nextId + 1, by simp [emitSelectRest]⟩
  · exact ⟨CVal.undef i8ptr, rfl,
      [CVal.gep (CVal.alloca b.nextId (Ty.array chanSelectStateTy sts.length)) [0, 0],
       CVal.constInt uintptrTy sts.length, CVal.constInt uintptrTy sts.length,
       CVal.gep (CVal.alloca (b.nextId + 1) (Ty.array (Ty.named "channelBlockedList") sts.length)) [0, 0],
       CVal.constInt uintptrTy sts.length, CVal.constInt uintptrTy sts.length],
      b.nextId + 1 + 1, by simp [emitSelectRest]⟩
  · exact ⟨CVal.gep (CVal.alloca b.nextId (Ty.array Ty.i8 sz)) [0, 0], rfl,
      [CVal.gep (CVal.alloca (b.nextId + 1) (Ty.array chanSelectStateTy sts.length)) [0, 0],
       CVal.constInt uintptrTy sts.length, CVal.constInt uintptrTy sts.length],
      b.nextId + 1 + 1, by simp [emitSelectRest]⟩
  · exact ⟨CVal.gep (CVal.alloca b.nextId (Ty.array Ty.i8 sz)) [0, 0], rfl,
      [CVal.gep (CVal.alloca (b.nextId + 1) (Ty.array chanSelectStateTy sts.length)) [0, 0],
       CVal.constInt uintptrTy sts.length, CVal.constInt uintptrTy sts.length,
       CVal.gep (CVal.alloca (b.nextId + 1 + 1) (Ty.array (Ty.named "channelBlockedList") sts.length)) [0, 0],
       CVal.constInt uintptrTy sts.length, CVal.constInt uintptrTy sts.length],
      b.nextId + 1 + 1 + 1, by simp [emitSelectRest]⟩

theorem emitSelectRest_recv (td : TargetData) (uintptrTy : Ty) (selId : Nat)
    (blocking : Bool) (frame : Frame) (sz al : Nat) (sts : List CVal)
    (b : Builder) :
    (emitSelectRest td uintptrTy selId blocking frame sz al true sts b).2.1 =
      ⟨(selId, CVal.gep (CVal.alloca b.nextId (Ty.array Ty.i8 sz)) [0, 0]) ::
        frame.selectRecvBuf⟩ ∧
    Emit.tempAlloca b.nextId (Ty.array Ty.i8 sz) ∈
      (emitSelectRest td uintptrTy selId blocking frame sz al true sts b).2.2.emits ∧
    Emit.setAlignment b.nextId al ∈
      (emitSelectRest td uintptrTy selId blocking frame sz al true sts b).2.2.emits := by
  cases blocking <;> exact ⟨rfl, by simp [emitSelectRest], by simp [emitSelectRest]⟩

theorem emitSelectRest_norecv (td : TargetData) (uintptrTy : Ty) (selId : Nat)
    (blocking : Bool) (frame : Frame) (sz al : Nat) (sts : List CVal)
    (b : Builder) :
    (emitSelectRest td uintptrTy selId blocking frame sz al false sts b).2.1 =
      ⟨(selId, CVal.undef i8ptr) :: frame.selectRecvBuf⟩ ∧
    ∃ Δ,
      (emitSelectRest td uintptrTy selId blocking frame sz al false sts b).2.2.emits =
        b.emits ++ Δ ∧
      ∀ id n, Emit.tempAlloca id (Ty.array Ty.i8 n) ∉ Δ := by
  cases blocking
  · refine ⟨rfl, [Emit.tempAlloca b.nextId (Ty.array chanSelectStateTy sts.length)] ++
      (sts.enum.map fun p =>
        Emit.store p.2 (CVal.gep (CVal.alloca b.nextId (Ty.array chanSelectStateTy sts.length)) [0, p.1])) ++
      [Emit.runtimeCall "tryChanSelect"
        [CVal.undef i8ptr, CVal.gep (CVal.alloca b.nextId (Ty.array chanSelectStateTy sts.length)) [0, 0],
         CVal.constInt uintptrTy sts.length, CVal.constInt uintptrTy sts.length] (b.nextId + 1),
       Emit.lifetimeEnd (CVal.bitcast (CVal.alloca b.nextId (Ty.array chanSelectStateTy sts.length)) i8ptr)
         (td.allocSize (Ty.array chanSelectStateTy sts.length))], ?_, ?_⟩
    · simp [emitSelectRest]
    · intro id n hmem
      simp [chanSelectStateTy] at hmem
  · refine ⟨rfl, [Emit.tempAlloca b.nextId (Ty.array chanSelectStateTy sts.length)] ++
      (sts.enum.map fun p =>
        Emit.store p.2 (CVal.gep (CVal.alloca b.nextId (Ty.array chanSelectStateTy sts.length)) [0, p.1])) ++
      [Emit.tempAlloca (b.nextId + 1) (Ty.array (Ty.named "channelBlockedList") sts.length),
       Emit.runtimeCall "chanSelect"
        [CVal.undef i8ptr, CVal.gep (CVal.alloca b.nextId (Ty.array chanSelectStateTy sts.length)) [0, 0],
         CVal.constInt uintptrTy sts.length, CVal.constInt uintptrTy sts.length,
         CVal.gep (CVal.alloca (b.nextId + 1) (Ty.array (Ty.named "channelBlockedList") sts.length)) [0, 0],
         CVal.constInt uintptrTy sts.length, CVal.constInt uintptrTy sts.length] (b.nextId + 1 + 1),
       Emit.lifetimeEnd (CVal.bitcast (CVal.alloca (b.nextId + 1) (Ty.array (Ty.named "channelBlockedList") sts.length)) i8ptr)
         (td.allocSize (Ty.array (Ty.named "channelBlockedList") sts.length)),
       Emit.lifetimeEnd (CVal.bitcast (CVal.alloca b.nextId (Ty.array chanSelectStateTy sts.length)) i8ptr)
         (td.allocSize (Ty.array chanSelectStateTy sts.length))], ?_, ?_⟩
    · simp [emitSelectRest]
    · intro id n hmem
      simp [chanSelectStateTy] at hmem

/-- C9: in select lowering, the shared receive scratch buffer is allocated
only if at least one receive case exists, as a byte array whose size is the
maximum element allocation size and whose alignment is the maximum ABI
alignment over all receive cases (the fold bounds every receive case and is
attained by one unless zero), and its address is what the runtime select
call receives as its first argument; when no receive case exists, an undef
placeholder pointer is passed to the runtime select call instead and no
byte-array scratch alloca is emitted at all. -/
theorem C9_recvBuffer (td : TargetData) (intTy uintptrTy resultTy : Ty)
    (selId : Nat) (cases : List SelCase) (blocking : Bool) (frame : Frame)
    (b : Builder) (hne : cases ≠ []) :
    (hasRecvCase cases = true →
      ∃ id rest cid,
        (emitSelect td intTy uintptrTy resultTy selId cases blocking frame
            b).2.1.selectRecvBuf.lookup selId =
          some (CVal.gep
            (CVal.alloca id (Ty.array Ty.i8 ((recvSizes td cases).foldl max 0)))
            [0, 0]) ∧
        Emit.tempAlloca id (Ty.array Ty.i8 ((recvSizes td cases).foldl max 0)) ∈
          (emitSelect td intTy uintptrTy resultTy selId cases blocking frame
            b).2.2.emits ∧
        Emit.setAlignment id ((recvAligns td cases).foldl max 0) ∈
          (emitSelect td intTy uintptrTy resultTy selId cases blocking frame
            b).2.2.emits ∧
        Emit.runtimeCall (if blocking then "chanSelect" else "tryChanSelect")
            (CVal.gep
              (CVal.alloca id (Ty.array Ty.i8 ((recvSizes td cases).foldl max 0)))
              [0, 0] :: rest) cid ∈
          (emitSelect td intTy uintptrTy resultTy selId cases blocking frame
            b).2.2.emits ∧
        (∀ x ∈ recvSizes td cases, x ≤ (recvSizes td cases).foldl max 0) ∧
        (∀ x ∈ recvAligns td cases, x ≤ (recvAligns td cases).foldl max 0) ∧
        ((recvSizes td cases).foldl max 0 ∈ recvSizes td cases ∨
          (recvSizes td cases).foldl max 0 = 0) ∧
        ((recvAligns td cases).foldl max 0 ∈ recvAligns td cases ∨
          (recvAligns td cases).foldl max 0 = 0)) ∧
    (hasRecvCase cases = false →
      (∃ rest cid,
        Emit.runtimeCall (if blocking then "chanSelect" else "tryChanSelect")
            (CVal.undef i8ptr :: rest) cid ∈
          (emitSelect td intTy uintptrTy resultTy selId cases blocking frame
            b).2.2.emits) ∧
      ∃ Δ,
        (emitSelect td intTy uintptrTy resultTy selId cases blocking frame
          b).2.2.emits = b.emits ++ Δ ∧
        ∀ id n, Emit.tempAlloca id (Ty.array Ty.i8 n) ∉ Δ) := by
  have hie : cases.isEmpty = false := by
    cases cases with
    | nil => exact absurd rfl hne
    | cons c cs => rfl
  obtain ⟨Δ0, hΔ0, hΔ0P⟩ := selectFold_emits td cases 0 0 false [] b
  have hsz := selectFold_sz td cases 0 0 false [] b
  have hal := selectFold_al td cases 0 0 false [] b
  have hhr := selectFold_hasR td cases 0 0 false [] b
  have hemit : emitSelect td intTy uintptrTy resultTy selId cases blocking frame b =
      emitSelectRest td uintptrTy selId blocking frame
        (List.foldl (selectCaseStep td) (0, 0, false, [], b) cases).1
        (List.foldl (selectCaseStep td) (0, 0, false, [], b) cases).2.1
        (List.foldl (selectCaseStep td) (0, 0, false, [], b) cases).2.2.1
        (List.foldl (selectCaseStep td) (0, 0, false, [], b) cases).2.2.2.1
        (List.foldl (selectCaseStep td) (0, 0, false, [], b) cases).2.2.2.2 := by
    simp [emitSelect, hie, buildStates]
  constructor
  · intro hR
    have h1 : (List.foldl (selectCaseStep td) (0, 0, false, [], b) cases).2.2.1 = true := by
      rw [hhr, hR]; simp
    rw [hemit, hsz, hal, h1] at *
    obtain ⟨hfr, hta, hsa⟩ := emitSelectRest_recv td uintptrTy selId blocking frame
      ((recvSizes td cases).foldl max 0) ((recvAligns td cases).foldl max 0)
      (List.foldl (selectCaseStep td) (0, 0, false, [], b) cases).2.2.2.1
      (List.foldl (selectCaseStep td) (0, 0, false, [], b) cases).2.2.2.2
    obtain ⟨rb, hrb, rest, cid, hcall⟩ := emitSelectRest_frame td uintptrTy selId blocking frame
      ((recvSizes td cases).foldl max 0) ((recvAligns td cases).foldl max 0) true
      (List.foldl (selectCaseStep td) (0, 0, false, [], b) cases).2.2.2.1
      (List.foldl (selectCaseStep td) (0, 0, false, [], b) cases).2.2.2.2
    have hrbeq : rb = CVal.gep
        (CVal.alloca (List.foldl (selectCaseStep td) (0, 0, false, [], b) cases).2.2.2.2.nextId
          (Ty.array Ty.i8 ((recvSizes td cases).foldl max 0))) [0, 0] := by
      have h3 := hrb.symm.trans hfr
      simpa using h3
    refine ⟨(List.foldl (selectCaseStep td) (0, 0, false, [], b) cases).2.2.2.2.nextId,
      rest, cid, ?_, hta, hsa, ?_, le_foldl_max _ 0, le_foldl_max _ 0, ?_, ?_⟩
    · rw [hfr]
      simp [List.lookup]
    · rw [hrbeq] at hcall
      exact hcall
    · rcases foldl_max_mem (recvSizes td cases) 0 with h | h
      · exact Or.inr h
      · exact Or.inl h
    · rcases foldl_max_mem (recvAligns td cases) 0 with h | h
      · exact Or.inr h
      · exact Or.inl h
  · intro hR
    have h1 : (List.foldl (selectCaseStep td) (0, 0, false, [], b) cases).2.2.1 = false := by
      rw [hhr, hR]; simp
    rw [hemit, h1] at *
    obtain ⟨hfr, Δr, hΔr, hΔrP⟩ := emitSelectRest_norecv td uintptrTy selId blocking frame
      (List.foldl (selectCaseStep td) (0, 0, false, [], b) cases).1
      (List.foldl (selectCaseStep td) (0, 0, false, [], b) cases).2.1
      (List.foldl (selectCaseStep td) (0, 0, false, [], b) cases).2.2.2.1
      (List.foldl (selectCaseStep td) (0, 0, false, [], b) cases).2.2.2.2
    obtain ⟨rb, hrb, rest, cid, hcall⟩ := emitSelectRest_frame td uintptrTy selId blocking frame
      (List.foldl (selectCaseStep td) (0, 0, false, [], b) cases).1
      (List.foldl (selectCaseStep td) (0, 0, false, [], b) cases).2.1 false
      (List.foldl (selectCaseStep td) (0, 0, false, [], b) cases).2.2.2.1
      (List.foldl (selectCaseStep td) (0, 0, false, [], b) cases).2.2.2.2
    have hrbeq : rb = CVal.undef i8ptr := by
      have h3 := hrb.symm.trans hfr
      simpa using h3
    constructor
    · refine ⟨rest, cid, ?_⟩
      rw [hrbeq] at hcall
      exact hcall
    · refine ⟨Δ0 ++ Δr, ?_, ?_⟩
      · rw [hΔr, hΔ0, List.append_assoc]
      · intro id n hmem
        rcases List.mem_append.mp hmem with h | h
        · rcases hΔ0P _ h with ⟨id2, t2, h2⟩ | ⟨v2, p2, h2⟩ <;> exact Emit.noConfusion h2
        · exact hΔrP id n h

/-- C9, witness: a one-receive-case non-blocking select on a target where
the element has size 4 and alignment 2. -/
theorem C9_recvBuffer_witness :
    ([SelCase.recv (CVal.callResult 0) Ty.i8] ≠ []) ∧
    ((hasRecvCase [SelCase.recv (CVal.callResult 0) Ty.i8] = true →
      ∃ id rest cid,
        (emitSelect ⟨fun _ => 4, fun _ => 2⟩ (Ty.named "i32") (Ty.named "uintptr")
            (Ty.named "selres") 7 [SelCase.recv (CVal.callResult 0) Ty.i8] false ⟨[]⟩
            ⟨0, []⟩).2.1.selectRecvBuf.lookup 7 =
          some (CVal.gep
            (CVal.alloca id (Ty.array Ty.i8
              ((recvSizes ⟨fun _ => 4, fun _ => 2⟩
                [SelCase.recv (CVal.callResult 0) Ty.i8]).foldl max 0)))
            [0, 0]) ∧
        Emit.tempAlloca id (Ty.array Ty.i8
            ((recvSizes ⟨fun _ => 4, fun _ => 2⟩
              [SelCase.recv (CVal.callResult 0) Ty.i8]).foldl max 0)) ∈
          (emitSelect ⟨fun _ => 4, fun _ => 2⟩ (Ty.named "i32") (Ty.named "uintptr")
            (Ty.named "selres") 7 [SelCase.recv (CVal.callResult 0) Ty.i8] false ⟨[]⟩
            ⟨0, []⟩).2.2.emits ∧
        Emit.setAlignment id
            ((recvAligns ⟨fun _ => 4, fun _ => 2⟩
              [SelCase.recv (CVal.callResult 0) Ty.i8]).foldl max 0) ∈
          (emitSelect ⟨fun _ => 4, fun _ => 2⟩ (Ty.named "i32") (Ty.named "uintptr")
            (Ty.named "selres") 7 [SelCase.recv (CVal.callResult 0) Ty.i8] false ⟨[]⟩
            ⟨0, []⟩).2.2.emits ∧
        Emit.runtimeCall (if false then "chanSelect" else "tryChanSelect")
            (CVal.gep
              (CVal.alloca id (Ty.array Ty.i8
                ((recvSizes ⟨fun _ => 4, fun _ => 2⟩
                  [SelCase.recv (CVal.callResult 0) Ty.i8]).foldl max 0)))
              [0, 0] :: rest) cid ∈
          (emitSelect ⟨fun _ => 4, fun _ => 2⟩ (Ty.named "i32") (Ty.named "uintptr")
            (Ty.named "selres") 7 [SelCase.recv (CVal.callResult 0) Ty.i8] false ⟨[]⟩
            ⟨0, []⟩).2.2.emits ∧
        (∀ x ∈ recvSizes ⟨fun _ => 4, fun _ => 2⟩
            [SelCase.recv (CVal.callResult 0) Ty.i8],
          x ≤ (recvSizes ⟨fun _ => 4, fun _ => 2⟩
            [SelCase.recv (CVal.callResult 0) Ty.i8]).foldl max 0) ∧
        (∀ x ∈ recvAligns ⟨fun _ => 4, fun _ => 2⟩
            [SelCase.recv (CVal.callResult 0) Ty.i8],
          x ≤ (recvAligns ⟨fun _ => 4, fun _ => 2⟩
            [SelCase.recv (CVal.callResult 0) Ty.i8]).foldl max 0) ∧
        ((recvSizes ⟨fun _ => 4, fun _ => 2⟩
            [SelCase.recv (CVal.callResult 0) Ty.i8]).foldl max 0 ∈
          recvSizes ⟨fun _ => 4, fun _ => 2⟩
            [SelCase.recv (CVal.callResult 0) Ty.i8] ∨
          (recvSizes ⟨fun _ => 4, fun _ => 2⟩
            [SelCase.recv (CVal.callResult 0) Ty.i8]).foldl max 0 = 0) ∧
        ((recvAligns ⟨fun _ => 4, fun _ => 2⟩
            [SelCase.recv (CVal.callResult 0) Ty.i8]).foldl max 0 ∈
          recvAligns ⟨fun _ => 4, fun _ => 2⟩
            [SelCase.recv (CVal.callResult 0) Ty.i8] ∨
          (recvAligns ⟨fun _ => 4, fun _ => 2⟩
            [SelCase.recv (CVal.callResult 0) Ty.i8]).foldl max 0 = 0)) ∧
    (hasRecvCase [SelCase.recv (CVal.callResult 0) Ty.i8] = false →
      (∃ rest cid,
        Emit.runtimeCall (if false then "chanSelect" else "tryChanSelect")
            (CVal.undef i8ptr :: rest) cid ∈
          (emitSelect ⟨fun _ => 4, fun _ => 2⟩ (Ty.named "i32") (Ty.named "uintptr")
            (Ty.named "selres") 7 [SelCase.recv (CVal.callResult 0) Ty.i8] false ⟨[]⟩
            ⟨0, []⟩).2.2.emits) ∧
      ∃ Δ,
        (emitSelect ⟨fun _ => 4, fun _ => 2⟩ (Ty.named "i32") (Ty.named "uintptr")
          (Ty.named "selres") 7 [SelCase.recv (CVal.callResult 0) Ty.i8] false ⟨[]⟩
          ⟨0, []⟩).2.2.emits = (Builder.mk 0 []).emits ++ Δ ∧
        ∀ id n, Emit.tempAlloca id (Ty.array Ty.i8 n) ∉ Δ)) :=
  ⟨by decide,
   C9_recvBuffer ⟨fun _ => 4, fun _ => 2⟩ (Ty.named "i32") (Ty.named "uintptr")
     (Ty.named "selres") 7 [SelCase.recv (CVal.callResult 0) Ty.i8] false ⟨[]⟩
     ⟨0, []⟩ (by decide)⟩

/-- C5: after lowering a select with at least one case, the side table maps
the select to its receive scratch buffer — the very pointer passed as the
runtime select call's receive-buffer argument — and an extraction with
index ≥ 2 looks that buffer up, casts it to a pointer to the extraction
site's statically expected type, and loads through it. -/
theorem C5_extractLoadsScratch (td : TargetData) (intTy uintptrTy resultTy : Ty)
    (selId : Nat) (cases : List SelCase) (blocking : Bool) (frame : Frame)
    (b : Builder) (hne : cases ≠ []) (indexWidth intWidth index : Nat)
    (hidx : 2 ≤ index) (tupleVal : CVal) (expectedTy : Ty) (b2 : Builder) :
    ∃ recvbuf,
      (emitSelect td intTy uintptrTy resultTy selId cases blocking frame
        b).2.1.selectRecvBuf.lookup selId = some recvbuf ∧
      (∃ rest cid,
        Emit.runtimeCall (if blocking then "chanSelect" else "tryChanSelect")
            (recvbuf :: rest) cid ∈
          (emitSelect td intTy uintptrTy resultTy selId cases blocking frame
            b).2.2.emits) ∧
      getChanSelectResult intTy indexWidth intWidth
          (emitSelect td intTy uintptrTy resultTy selId cases blocking frame b).2.1
          selId tupleVal index expectedTy b2 =
        some (CVal.load (CVal.bitcast recvbuf (Ty.ptr expectedTy)) b2.nextId,
              ⟨b2.nextId + 1, b2.emits⟩) := by
  have hie : cases.isEmpty = false := by
    cases cases with
    | nil => exact absurd rfl hne
    | cons c cs => rfl
  have h0 : index ≠ 0 := by omega
  have h1 : index ≠ 1 := by omega
  have hemit : emitSelect td intTy uintptrTy resultTy selId cases blocking frame b =
      emitSelectRest td uintptrTy selId blocking frame
        (List.foldl (selectCaseStep td) (0, 0, false, [], b) cases).1
        (List.foldl (selectCaseStep td) (0, 0, false, [], b) cases).2.1
        (List.foldl (selectCaseStep td) (0, 0, false, [], b) cases).2.2.1
        (List.foldl (selectCaseStep td) (0, 0, false, [], b) cases).2.2.2.1
        (List.foldl (selectCaseStep td) (0, 0, false, [], b) cases).2.2.2.2 := by
    simp [emitSelect, hie, buildStates]
  obtain ⟨rb, hrb, rest, cid, hcall⟩ := emitSelectRest_frame td uintptrTy selId blocking frame
    (List.foldl (selectCaseStep td) (0, 0, false, [], b) cases).1
    (List.foldl (selectCaseStep td) (0, 0, false, [], b) cases).2.1
    (List.foldl (selectCaseStep td) (0, 0, false, [], b) cases).2.2.1
    (List.foldl (selectCaseStep td) (0, 0, false, [], b) cases).2.2.2.1
    (List.foldl (selectCaseStep td) (0, 0, false, [], b) cases).2.2.2.2
  refine ⟨rb, ?_, ⟨rest, cid, ?_⟩, ?_⟩
  · rw [hemit, hrb]
    simp [List.lookup]
  · rw [hemit]
    exact hcall
  · rw [hemit, hrb]
    simp [getChanSelectResult, h0, h1, List.lookup]

/-- C5, witness: lowering a one-receive-case select then extracting index 2
loads through the recorded scratch buffer. -/
theorem C5_extractLoadsScratch_witness :
    ([SelCase.recv (CVal.callResult 0) Ty.i8] ≠ []) ∧ (2 ≤ 2) ∧
    (∃ recvbuf,
      (emitSelect ⟨fun _ => 4, fun _ => 2⟩ (Ty.named "i32") (Ty.named "uintptr")
        (Ty.named "selres") 7 [SelCase.recv (CVal.callResult 0) Ty.i8] true ⟨[]⟩
        ⟨0, []⟩).2.1.selectRecvBuf.lookup 7 = some recvbuf ∧
      (∃ rest cid,
        Emit.runtimeCall (if true then "chanSelect" else "tryChanSelect")
            (recvbuf :: rest) cid ∈
          (emitSelect ⟨fun _ => 4, fun _ => 2⟩ (Ty.named "i32") (Ty.named "uintptr")
            (Ty.named "selres") 7 [SelCase.recv (CVal.callResult 0) Ty.i8] true ⟨[]⟩
            ⟨0, []⟩).2.2.emits) ∧
      getChanSelectResult (Ty.named "i32") 16 32
          (emitSelect ⟨fun _ => 4, fun _ => 2⟩ (Ty.named "i32") (Ty.named "uintptr")
            (Ty.named "selres") 7 [SelCase.recv (CVal.callResult 0) Ty.i8] true ⟨[]⟩
            ⟨0, []⟩).2.1
          7 (CVal.callResult 5) 2 Ty.i8 ⟨40, []⟩ =
        some (CVal.load (CVal.bitcast recvbuf (Ty.ptr Ty.i8)) 40, ⟨41, []⟩)) :=
  ⟨by decide, by decide,
   C5_extractLoadsScratch ⟨fun _ => 4, fun _ => 2⟩ (Ty.named "i32") (Ty.named "uintptr")
     (Ty.named "selres") 7 [SelCase.recv (CVal.callResult 0) Ty.i8] true ⟨[]⟩
     ⟨0, []⟩ (by decide) 16 32 2 (by decide) (CVal.callResult 5) Ty.i8 ⟨40, []⟩⟩

/-- C6: an extraction with field index ≥ 2 fails (the Go code reads the zero
`llvm.Value` out of the map and the builder faults on it) when no
side-table entry exists for the referenced select: `getChanSelectResult`
does not silently produce a value from a missing entry. -/
theorem C6_missingEntryFails (intTy : Ty) (indexWidth intWidth : Nat)
    (frame : Frame) (selId : Nat) (tupleVal : CVal) (index : Nat)
    (expectedTy : Ty) (b : Builder) (hidx : 2 ≤ index)
    (hmiss : frame.selectRecvBuf.lookup selId = none) :
    getChanSelectResult intTy indexWidth intWidth frame selId tupleVal index
      expectedTy b = none := by
  have h0 : index ≠ 0 := by omega
  have h1 : index ≠ 1 := by omega
  simp [getChanSelectResult, h0, h1, hmiss]

/-- C6, witness: extracting index 2 against an empty side table fails. -/
theorem C6_missingEntryFails_witness :
    (2 ≤ 2) ∧ ((Frame.mk []).selectRecvBuf.lookup 3 = none) ∧
    getChanSelectResult (Ty.named "i32") 16 32 ⟨[]⟩ 3 (CVal.callResult 0) 2
      Ty.i8 ⟨0, []⟩ = none :=
  ⟨by decide, by decide,
   C6_missingEntryFails (Ty.named "i32") 16 32 ⟨[]⟩ 3 (CVal.callResult 0) 2
     Ty.i8 ⟨0, []⟩ (by decide) (by decide)⟩

/-! ### Helper lemmas for the interrupt pass -/

theorem lookup_mem_keys {α β : Type} [DecidableEq α] (l : List (α × β)) (a : α)
    (h : a ∈ l.map Prod.fst) : ∃ v, l.lookup a = some v := by
  induction l with
  | nil => simp at h
  | cons x xs ih =>
    obtain ⟨k, v⟩ := x
    by_cases hak : a = k
    · exact ⟨v, by simp [List.lookup, hak]⟩
    · have h2 : a ∈ xs.map Prod.fst := by
        rcases List.mem_cons.mp h with h3 | h3
        · exact absurd h3 hak
        · exact h3
      obtain ⟨w, hw⟩ := ih h2
      refine ⟨w, ?_⟩
      have hbeq : (a == k) = false := beq_eq_false_iff_ne.mpr hak
      rw [List.lookup, hbeq]
      exact hw

/-- C4: when software-vectored entries were recorded, dispatcher synthesis
builds a switch over the interrupt-number parameter with exactly one case
per recorded interrupt number (a permutation of the recorded key set), the
cases added in ascending numeric order, each case block calling only the
corresponding forwarding function and then returning, a default block that
returns without calling any handler, and the dispatcher is marked internal
linkage and unnamed-address. -/
theorem C4_dispatcher (sv : List (Int × String)) (decl : Fn)
    (hne : sv ≠ []) (hnd : (sv.map Prod.fst).Nodup) :
    ∃ ids : List Int,
      ids.Perm (sv.map Prod.fst) ∧
      List.Sorted (· < ·) ids ∧
      ids ≠ [] ∧
      (dispatcherFn sv decl).blocks =
        ⟨"entry",
         [Inst.switch (ids.map fun id => (id, "interrupt" ++ toString id))
           "default"]⟩ ::
        ⟨"default", [Inst.retVoid]⟩ ::
        ids.map (fun id =>
          ⟨"interrupt" ++ toString id,
           [Inst.call (IVal.cFunc ((sv.lookup id).getD "")) [], Inst.retVoid]⟩) ∧
      (∀ id ∈ ids, ∃ fname, sv.lookup id = some fname) ∧
      (dispatcherFn sv decl).internal = true ∧
      (dispatcherFn sv decl).unnamedAddr = true := by
  have hded : (sv.map Prod.fst).dedup = sv.map Prod.fst :=
    List.dedup_eq_self.mpr hnd
  have hperm : (((sv.map Prod.fst).dedup).insertionSort (· ≤ ·)).Perm
      (sv.map Prod.fst) := by
    rw [hded]
    exact List.perm_insertionSort _ _
  have hsorted : List.Sorted (· ≤ ·)
      (((sv.map Prod.fst).dedup).insertionSort (· ≤ ·)) :=
    List.sorted_insertionSort _ _
  have hidsnd : (((sv.map Prod.fst).dedup).insertionSort (· ≤ ·)).Nodup :=
    hperm.symm.nodup hnd
  refine ⟨((sv.map Prod.fst).dedup).insertionSort (· ≤ ·), hperm, ?_, ?_, rfl,
    ?_, rfl, rfl⟩
  · exact (hsorted.and hidsnd).imp fun h => lt_of_le_of_ne h.1 h.2
  · intro hnil
    have hlen := hperm.length_eq
    rw [hnil] at hlen
    have : sv.map Prod.fst = [] := List.length_eq_zero.mp hlen.symm
    exact hne (List.map_eq_nil_iff.mp this)
  · intro id hid
    exact lookup_mem_keys sv id (hperm.subset hid)

/-- C4, witness: recorded numbers {3, 7, 1} give cases in order {1, 3, 7}. -/
theorem C4_dispatcher_witness :
    ([((3 : Int), "h3"), (7, "h7"), (1, "h1")] ≠ ([] : List (Int × String))) ∧
    (([((3 : Int), "h3"), (7, "h7"), (1, "h1")].map Prod.fst).Nodup) ∧
    (∃ ids : List Int,
      ids.Perm ([((3 : Int), "h3"), (7, "h7"), (1, "h1")].map Prod.fst) ∧
      List.Sorted (· < ·) ids ∧
      ids ≠ [] ∧
      (dispatcherFn [((3 : Int), "h3"), (7, "h7"), (1, "h1")]
          ⟨"runtime.callInterruptHandler", false, [], false, "", false, 0,
           none⟩).blocks =
        ⟨"entry",
         [Inst.switch (ids.map fun id => (id, "interrupt" ++ toString id))
           "default"]⟩ ::
        ⟨"default", [Inst.retVoid]⟩ ::
        ids.map (fun id =>
          ⟨"interrupt" ++ toString id,
           [Inst.call
             (IVal.cFunc (([((3 : Int), "h3"), (7, "h7"), (1, "h1")].lookup
               id).getD "")) [], Inst.retVoid]⟩) ∧
      (∀ id ∈ ids, ∃ fname,
        [((3 : Int), "h3"), (7, "h7"), (1, "h1")].lookup id = some fname) ∧
      (dispatcherFn [((3 : Int), "h3"), (7, "h7"), (1, "h1")]
          ⟨"runtime.callInterruptHandler", false, [], false, "", false, 0,
           none⟩).internal = true ∧
      (dispatcherFn [((3 : Int), "h3"), (7, "h7"), (1, "h1")]
          ⟨"runtime.callInterruptHandler", false, [], false, "", false, 0,
           none⟩).unnamedAddr = true) :=
  ⟨by decide, by decide,
   C4_dispatcher [((3 : Int), "h3"), (7, "h7"), (1, "h1")]
     ⟨"runtime.callInterruptHandler", false, [], false, "", false, 0, none⟩
     (by decide) (by decide)⟩

/-- C3: when a descriptor's resolved handler name already names a defined
function, an existing definition whose first instruction is a call with the
identical forwarding target, interrupt-number and context operands makes
the descriptor a harmless duplicate: it is skipped with no recorded error —
so two identical descriptors yield exactly one synthesized function — while
a name bound to a different signature, or defined with different content,
records a redeclaration error and skips the descriptor. -/
theorem C3_redeclaration (allGlobals : List GlobalVar)
    (names : List (Int × String)) (hasSW : Bool) (target : String) (st : BSt)
    (gname gloc : String) (uses : List IUse) (ctx : IVal) (f : String)
    (num : Int) (name : String) (g : GlobalVar)
    (hg : g = ⟨gname, "runtime/interrupt.handle", true,
      IVal.cStructPair (IVal.cStructPair ctx (IVal.cFunc f))
        (IVal.cStructOne (IVal.cInt num)), [], uses, gloc⟩)
    (hctx : ctx.isConstant = true)
    (hname : names.lookup num = some name) (hname2 : name ≠ "") :
    (∀ fn : Fn, st.funcs.find? (fun fc => fc.name = name) = some fn →
      ((fn.sigVoidVoid = true → fn.blocks ≠ [] →
        (firstInst fn).any
          (fun i => identicalCall i (IVal.cFunc f) (IVal.cInt num) ctx) = true →
        processHandler allGlobals names hasSW target st g =
          some { st with
                   kept := st.kept ++ [g],
                   outcomes := st.outcomes ++
                     [(g.name, Outcome.duplicateSkip)] }) ∧
       (fn.sigVoidVoid = false →
        processHandler allGlobals names hasSW target st g =
          some (skipErr st g
            ⟨gloc, name ++ " redeclared with a different signature"⟩)) ∧
       (fn.sigVoidVoid = true → fn.blocks ≠ [] →
        (firstInst fn).any
          (fun i => identicalCall i (IVal.cFunc f) (IVal.cInt num) ctx) = false →
        processHandler allGlobals names hasSW target st g =
          some (skipErr st g ⟨gloc, redeclMsg name fn⟩)))) ∧
    (st.funcs.find? (fun fc => fc.name = name) = none →
      ∀ (g2 : GlobalVar) (g2name g2loc : String) (uses2 : List IUse),
        g2 = ⟨g2name, "runtime/interrupt.handle", true,
          IVal.cStructPair (IVal.cStructPair ctx (IVal.cFunc f))
            (IVal.cStructOne (IVal.cInt num)), [], uses2, g2loc⟩ →
        ∃ st1 st2,
          processHandler allGlobals names hasSW target st g = some st1 ∧
          processHandler allGlobals names hasSW target st1 g2 = some st2 ∧
          (st1.funcs.filter (fun fc => fc.name = name)).length = 1 ∧
          st2.funcs = st1.funcs ∧
          st2.errs = st1.errs ∧
          st2.outcomes = st1.outcomes ++ [(g2.name, Outcome.duplicateSkip)]) := by
  subst hg
  constructor
  · intro fn hfind
    refine ⟨?_, ?_, ?_⟩
    · intro hsig hdef hident
      simp only [processHandler, extractConst, IVal.intValue, hname,
        Option.getD_some]
      rw [if_neg (by simp [hname2])]
      simp only [hctx, unwrapFuncPtr, IVal.isFuncPtr]
      simp [IVal.isConstant, hfind, hsig, hdef, hident, List.isEmpty_iff,
        hname2]
    · intro hsig
      simp only [processHandler, extractConst, IVal.intValue, hname,
        Option.getD_some]
      rw [if_neg (by simp [hname2])]
      simp only [hctx, unwrapFuncPtr, IVal.isFuncPtr]
      simp [IVal.isConstant, hfind, hsig, List.isEmpty_iff, hname2]
    · intro hsig hdef hident
      simp only [processHandler, extractConst, IVal.intValue, hname,
        Option.getD_some]
      rw [if_neg (by simp [hname2])]
      simp only [hctx, unwrapFuncPtr, IVal.isFuncPtr]
      simp [IVal.isConstant, hfind, hsig, hdef, hident, List.isEmpty_iff,
        hname2]
  · intro hnone g2 g2name g2loc uses2 hg2
    subst hg2
    have h1 : processHandler allGlobals names hasSW target st
        ⟨gname, "runtime/interrupt.handle", true,
          IVal.cStructPair (IVal.cStructPair ctx (IVal.cFunc f))
            (IVal.cStructOne (IVal.cInt num)), [], uses, gloc⟩ =
        some (synthFresh st
          ⟨gname, "runtime/interrupt.handle", true,
            IVal.cStructPair (IVal.cStructPair ctx (IVal.cFunc f))
              (IVal.cStructOne (IVal.cInt num)), [], uses, gloc⟩
          num name false (IVal.cFunc f) ctx target) := by
      have hbeq : (name == "") = false := beq_eq_false_iff_ne.mpr hname2
      simp only [processHandler, extractConst, IVal.intValue, hname,
        Option.getD_some]
      rw [if_neg (by simp [hname2])]
      simp only [hctx, unwrapFuncPtr, IVal.isFuncPtr, if_neg hname2]
      simp [IVal.isConstant, hnone, hname2, hbeq, synthFresh]
    have hsynthname : (synthFn (newHandlerDecl name) name false (IVal.cFunc f)
        (IVal.cInt num) ctx target).name = name := by
      simp [synthFn, newHandlerDecl]
    have hfind2 : (synthFresh st
        ⟨gname, "runtime/interrupt.handle", true,
          IVal.cStructPair (IVal.cStructPair ctx (IVal.cFunc f))
            (IVal.cStructOne (IVal.cInt num)), [], uses, gloc⟩
        num name false (IVal.cFunc f) ctx target).funcs.find?
          (fun fc => fc.name = name) =
        some (synthFn (newHandlerDecl name) name false (IVal.cFunc f)
          (IVal.cInt num) ctx target) := by
      simp [synthFresh, List.find?_append, hnone, hsynthname]
    have h2 : processHandler allGlobals names hasSW target
        (synthFresh st
          ⟨gname, "runtime/interrupt.handle", true,
            IVal.cStructPair (IVal.cStructPair ctx (IVal.cFunc f))
              (IVal.cStructOne (IVal.cInt num)), [], uses, gloc⟩
          num name false (IVal.cFunc f) ctx target)
        ⟨g2name, "runtime/interrupt.handle", true,
          IVal.cStructPair (IVal.cStructPair ctx (IVal.cFunc f))
            (IVal.cStructOne (IVal.cInt num)), [], uses2, g2loc⟩ =
        some { (synthFresh st
            ⟨gname, "runtime/interrupt.handle", true,
              IVal.cStructPair (IVal.cStructPair ctx (IVal.cFunc f))
                (IVal.cStructOne (IVal.cInt num)), [], uses, gloc⟩
            num name false (IVal.cFunc f) ctx target) with
            kept := (synthFresh st
              ⟨gname, "runtime/interrupt.handle", true,
                IVal.cStructPair (IVal.cStructPair ctx (IVal.cFunc f))
                  (IVal.cStructOne (IVal.cInt num)), [], uses, gloc⟩
              num name false (IVal.cFunc f) ctx target).kept ++
              [⟨g2name, "runtime/interrupt.handle", true,
                IVal.cStructPair (IVal.cStructPair ctx (IVal.cFunc f))
                  (IVal.cStructOne (IVal.cInt num)), [], uses2, g2loc⟩],
            outcomes := (synthFresh st
              ⟨gname, "runtime/interrupt.handle", true,
                IVal.cStructPair (IVal.cStructPair ctx (IVal.cFunc f))
                  (IVal.cStructOne (IVal.cInt num)), [], uses, gloc⟩
              num name false (IVal.cFunc f) ctx target).outcomes ++
              [(g2name, Outcome.duplicateSkip)] } := by
      simp only [processHandler, extractConst, IVal.intValue, hname,
        Option.getD_some]
      rw [if_neg (by simp [hname2])]
      simp only [hctx, unwrapFuncPtr, IVal.isFuncPtr, if_neg hname2, hfind2]
      simp [IVal.isConstant, hname2, synthFn, newHandlerDecl, firstInst,
        identicalCall, List.isEmpty_iff]
    refine ⟨_, _, h1, h2, ?_, rfl, rfl, rfl⟩
    have hfilter : st.funcs.filter (fun fc => fc.name = name) = [] := by
      rw [List.filter_eq_nil_iff]
      intro x hx
      exact List.find?_eq_none.mp hnone x hx
    simp [synthFresh, List.filter_append, hfilter, hsynthname]

/-- C8: a descriptor whose interrupt number has no entry in the Phase A name
table is resolved according to software vectoring: when the module requires
software vectoring, the pass synthesizes the deterministic placeholder name
derived from the number, marks the handler software-vectored (internal
linkage) and records it in the software-vector table; otherwise it records
a diagnostic naming the unresolved interrupt number and skips the
descriptor. -/
theorem C8_unresolvedName (allGlobals : List GlobalVar)
    (names : List (Int × String)) (target : String) (st : BSt)
    (gname gloc : String) (uses : List IUse) (ctx : IVal) (f : String)
    (num : Int) (g : GlobalVar)
    (hg : g = ⟨gname, "runtime/interrupt.handle", true,
      IVal.cStructPair (IVal.cStructPair ctx (IVal.cFunc f))
        (IVal.cStructOne (IVal.cInt num)), [], uses, gloc⟩)
    (hctx : ctx.isConstant = true)
    (hmiss : names.lookup num = none) :
    (processHandler allGlobals names false target st g =
      some (skipErr st g
        ⟨gloc, "cannot find interrupt name for number " ++ toString num⟩)) ∧
    (st.funcs.find? (fun fc => fc.name = placeholderName num) = none →
      processHandler allGlobals names true target st g =
        some (synthFresh st g num (placeholderName num) true (IVal.cFunc f)
          ctx target) ∧
      (synthFresh st g num (placeholderName num) true (IVal.cFunc f) ctx
        target).sv = (num, placeholderName num) :: st.sv ∧
      ∃ fn, fn ∈ (synthFresh st g num (placeholderName num) true
          (IVal.cFunc f) ctx target).funcs ∧
        fn.name = placeholderName num ∧ fn.internal = true ∧
        fn.blocks ≠ []) := by
  subst hg
  constructor
  · simp only [processHandler, extractConst, IVal.intValue, hmiss,
      Option.getD_none]
    rw [if_pos (by simp)]
  · intro hnone
    refine ⟨?_, by simp [synthFresh], ?_⟩
    · simp only [processHandler, extractConst, IVal.intValue, hmiss,
        Option.getD_none]
      rw [if_neg (by simp)]
      simp only [hctx, unwrapFuncPtr, IVal.isFuncPtr, if_pos rfl]
      simp [IVal.isConstant, hnone, synthFresh]
    · refine ⟨synthFn (newHandlerDecl (placeholderName num))
        (placeholderName num) true (IVal.cFunc f) (IVal.cInt num) ctx target,
        ?_, ?_, ?_, ?_⟩
      · simp [synthFresh]
      · simp [synthFn, newHandlerDecl]
      · simp [synthFn]
      · simp [synthFn]

/-- C10: when rewriting a successfully processed descriptor's remaining
uses, a use that is not a `ptrtoint` constant expression makes the pass
record an internal error for that use, but the descriptor global is still
erased (it is not kept in the module) and the already-synthesized handler
function is kept — there is no atomicity for per-descriptor failures
discovered during use rewriting. -/
theorem C10_useRewriteNoAtomicity (allGlobals : List GlobalVar)
    (names : List (Int × String)) (hasSW : Bool) (target : String) (st : BSt)
    (gname gloc : String) (uses : List IUse) (ctx : IVal) (f : String)
    (num : Int) (name : String) (uid : Nat) (g : GlobalVar)
    (hg : g = ⟨gname, "runtime/interrupt.handle", true,
      IVal.cStructPair (IVal.cStructPair ctx (IVal.cFunc f))
        (IVal.cStructOne (IVal.cInt num)), [], uses, gloc⟩)
    (hctx : ctx.isConstant = true)
    (hname : names.lookup num = some name) (hname2 : name ≠ "")
    (hnone : st.funcs.find? (fun fc => fc.name = name) = none)
    (hbad : IUse.other uid ∈ uses) :
    processHandler allGlobals names hasSW target st g =
      some (synthFresh st g num name false (IVal.cFunc f) ctx target) ∧
    (⟨gloc, "internal error: expected a ptrtoint"⟩ : Err) ∈
      (synthFresh st g num name false (IVal.cFunc f) ctx target).errs ∧
    (synthFresh st g num name false (IVal.cFunc f) ctx target).kept =
      st.kept ∧
    (g.name, Outcome.synthesized) ∈
      (synthFresh st g num name false (IVal.cFunc f) ctx target).outcomes ∧
    ∃ fn, fn ∈ (synthFresh st g num name false (IVal.cFunc f) ctx
        target).funcs ∧
      fn.name = name ∧ fn.blocks ≠ [] := by
  subst hg
  refine ⟨?_, ?_, rfl, ?_, ?_⟩
  · have hbeq : (name == "") = false := beq_eq_false_iff_ne.mpr hname2
    simp only [processHandler, extractConst, IVal.intValue, hname,
      Option.getD_some]
    rw [if_neg (by simp [hname2])]
    simp only [hctx, unwrapFuncPtr, IVal.isFuncPtr, if_neg hname2]
    simp [IVal.isConstant, hnone, hname2, hbeq, synthFresh]
  · simp only [synthFresh, List.mem_append]
    right
    rw [useRewriteErrs, List.mem_filterMap]
    exact ⟨IUse.other uid, hbad, rfl⟩
  · simp [synthFresh]
  · exact ⟨synthFn (newHandlerDecl name) name false (IVal.cFunc f)
      (IVal.cInt num) ctx target, by simp [synthFresh],
      by simp [synthFn, newHandlerDecl], by simp [synthFn]⟩

/-! ### The cleanup invariant of the full pass -/

theorem registerStep_extends (globals : List GlobalVar) (st : PhaseASt)
    (u : RegUse) (s1 : PhaseASt) (h : registerStep globals st u = some s1) :
    ∃ de dk, s1.errs = st.errs ++ de ∧ s1.kept = st.kept ++ dk ∧
      (de = [] → dk = []) := by
  simp only [registerStep] at h
  repeat' split at h
  all_goals first
    | exact Option.noConfusion h
    | (injection h with h2; subst h2;
       first
         | exact ⟨_, [u], rfl, rfl, fun hc => absurd hc (by simp)⟩
         | exact ⟨[], [], by simp, by simp, fun _ => rfl⟩)

theorem registerFold_extends (globals : List GlobalVar) (us : List RegUse) :
    ∀ st st', us.foldlM (registerStep globals) st = some st' →
      ∃ de dk, st'.errs = st.errs ++ de ∧ st'.kept = st.kept ++ dk ∧
        (de = [] → dk = []) := by
  induction us with
  | nil =>
    intro st st' h
    simp only [List.foldlM_nil, pure, Option.some.injEq] at h
    subst h
    exact ⟨[], [], by simp, by simp, fun _ => rfl⟩
  | cons u us ih =>
    intro st st' h
    rw [List.foldlM_cons] at h
    cases hstep : registerStep globals st u with
    | none => rw [hstep] at h; exact Option.noConfusion h
    | some s1 =>
        rw [hstep] at h
        simp only [Option.bind_eq_bind, Option.some_bind] at h
        obtain ⟨de1, dk1, he1, hk1, hi1⟩ := registerStep_extends globals st u s1 hstep
        obtain ⟨de2, dk2, he2, hk2, hi2⟩ := ih s1 st' h
        refine ⟨de1 ++ de2, dk1 ++ dk2, ?_, ?_, ?_⟩
        · rw [he2, he1, List.append_assoc]
        · rw [hk2, hk1, List.append_assoc]
        · intro hc
          rcases List.append_eq_nil.mp hc with ⟨h1, h2⟩
          rw [hi1 h1, hi2 h2]
          rfl

theorem processHandler_extends (allGlobals : List GlobalVar)
    (names : List (Int × String)) (hasSW : Bool) (target : String) (st : BSt)
    (g : GlobalVar) (st' : BSt)
    (h : processHandler allGlobals names hasSW target st g = some st') :
    ∃ de dk dout, st'.errs = st.errs ++ de ∧ st'.kept = st.kept ++ dk ∧
      st'.outcomes = st.outcomes ++ dout ∧
      (de = [] → ∀ g2 ∈ dk, (g2.name, Outcome.duplicateSkip) ∈ dout) := by
  simp only [processHandler] at h
  repeat' split at h
  all_goals first
    | exact Option.noConfusion h
    | (injection h with h2; subst h2;
       first
         | exact ⟨_, [g], [(g.name, Outcome.errorSkip)], rfl, rfl, rfl,
             fun hc => absurd hc (by simp)⟩
         | exact ⟨[], [g], [(g.name, Outcome.duplicateSkip)], by simp, rfl,
             rfl, fun _ g2 hg2 => by
               simp only [List.mem_singleton] at hg2
               simp [hg2]⟩
         | exact ⟨useRewriteErrs g, [], [(g.name, Outcome.synthesized)], rfl,
             by simp, rfl, fun _ g2 hg2 => absurd hg2 (by simp)⟩)

theorem processFold_extends (allGlobals : List GlobalVar)
    (names : List (Int × String)) (hasSW : Bool) (target : String)
    (gs : List GlobalVar) :
    ∀ st st', gs.foldlM (processHandler allGlobals names hasSW target) st =
        some st' →
      ∃ de dk dout, st'.errs = st.errs ++ de ∧ st'.kept = st.kept ++ dk ∧
        st'.outcomes = st.outcomes ++ dout ∧
        (de = [] → ∀ g2 ∈ dk, (g2.name, Outcome.duplicateSkip) ∈ dout) := by
  induction gs with
  | nil =>
    intro st st' h
    simp only [List.foldlM_nil, pure, Option.some.injEq] at h
    subst h
    exact ⟨[], [], [], by simp, by simp, by simp,
      fun _ g2 hg2 => absurd hg2 (by simp)⟩
  | cons g gs ih =>
    intro st st' h
    rw [List.foldlM_cons] at h
    cases hstep : processHandler allGlobals names hasSW target st g with
    | none => rw [hstep] at h; exact Option.noConfusion h
    | some s1 =>
        rw [hstep] at h
        simp only [Option.bind_eq_bind, Option.some_bind] at h
        obtain ⟨de1, dk1, do1, he1, hk1, ho1, hi1⟩ :=
          processHandler_extends allGlobals names hasSW target st g s1 hstep
        obtain ⟨de2, dk2, do2, he2, hk2, ho2, hi2⟩ := ih s1 st' h
        refine ⟨de1 ++ de2, dk1 ++ dk2, do1 ++ do2, ?_, ?_, ?_, ?_⟩
        · rw [he2, he1, List.append_assoc]
        · rw [hk2, hk1, List.append_assoc]
        · rw [ho2, ho1, List.append_assoc]
        · intro hc g2 hg2
          rcases List.append_eq_nil.mp hc with ⟨h1, h2⟩
          rcases List.mem_append.mp hg2 with hm | hm
          · exact List.mem_append_left _ (hi1 h1 g2 hm)
          · exact List.mem_append_right _ (hi2 h2 g2 hm)

theorem useFold_extends (us : List UseUse) :
    ∀ acc : List UseUse × List Err, ∃ dk de,
      (us.foldl useStep acc).1 = acc.1 ++ dk ∧
      (us.foldl useStep acc).2 = acc.2 ++ de ∧ (de = [] → dk = []) := by
  induction us with
  | nil => intro acc; exact ⟨[], [], by simp, by simp, fun _ => rfl⟩
  | cons u us ih =>
    intro acc
    rw [List.foldl_cons]
    by_cases hc : u.isCall = true
    · have hstep : useStep acc u = acc := by simp [useStep, hc]
      rw [hstep]
      exact ih acc
    · have hstep : useStep acc u = (acc.1 ++ [u], acc.2 ++
        [⟨u.loc, "internal error: expected call to runtime/interrupt.use"⟩]) := by
        simp [useStep, hc]
      rw [hstep]
      obtain ⟨dk2, de2, h1, h2, hi⟩ := ih (acc.1 ++ [u], acc.2 ++
        [⟨u.loc, "internal error: expected call to runtime/interrupt.use"⟩])
      refine ⟨[u] ++ dk2,
        [⟨u.loc, "internal error: expected call to runtime/interrupt.use"⟩] ++ de2,
        ?_, ?_, ?_⟩
      · rw [h1]
        simp
      · rw [h2]
        simp
      · intro hcc
        exact absurd hcc (by simp)

/-- C2 (amended): after a full run of the interrupt-lowering pass that
records no errors, no `runtime/interrupt.Register` calls and no
`runtime/interrupt.use` calls remain in the module, and every
interrupt-handler-descriptor global still present is one the pass skipped
as a harmless duplicate of an identical already-defined handler (duplicate
descriptors are skipped without being erased). -/
theorem C2_cleanup (m : Module) (r : LowerResult)
    (h : LowerInterrupts m = some r) (hnoerr : r.errs = []) :
    r.module.registerUses = [] ∧ r.module.useUses = [] ∧
    ∀ g ∈ r.module.globals, g.typeName = "runtime/interrupt.handle" →
      (g.name, Outcome.duplicateSkip) ∈ r.outcomes := by
  unfold LowerInterrupts at h
  split at h
  next => exact Option.noConfusion h
  next a ha =>
    split at h
    next => exact Option.noConfusion h
    next bs hb =>
      split at h
      next => exact Option.noConfusion h
      next funcs2 hd =>
        injection h with h2
        subst h2
        obtain ⟨hA, hB, hC⟩ : a.errs = [] ∧ bs.errs = [] ∧
            (m.useUses.foldl useStep ([], [])).2 = [] := by
          simpa [List.append_eq_nil] using hnoerr
        refine ⟨?_, ?_, ?_⟩
        · obtain ⟨de, dk, he, hk, hi⟩ :=
            registerFold_extends m.globals m.registerUses ⟨[], [], []⟩ a ha
          have hde : de = [] := by
            rw [hA] at he
            exact (List.append_eq_nil.mp he.symm).2
          simpa [hi hde] using hk
        · obtain ⟨dk, de, hk, he, hi⟩ := useFold_extends m.useUses ([], [])
          have hde : de = [] := by
            rw [hC] at he
            exact (List.append_eq_nil.mp he.symm).2
          simpa [hi hde] using hk
        · intro g hg hty
          obtain ⟨de, dk, dout, he, hk, ho, hi⟩ :=
            processFold_extends m.globals a.names m.hasSoftwareVectoring
              m.target _ ⟨m.funcs, [], [], [], []⟩ bs hb
          have hde : de = [] := by
            rw [hB] at he
            exact (List.append_eq_nil.mp he.symm).2
          simp only [List.mem_append] at hg
          rcases hg with hg | hg
          · rcases List.mem_filter.mp hg with ⟨_, hg2⟩
            simp [hty] at hg2
          · have hgk : g ∈ dk := by
              rw [hk] at hg
              simpa using hg
            have := hi hde g hgk
            rw [ho]
            simpa using this

/-- C2, counterexample: after a full run on `C2cexM`, a (non-call)
`runtime/interrupt.Register` use remains, a (non-call)
`runtime/interrupt.use` use remains, and the duplicate descriptor global
`gB` — of type `runtime/interrupt.handle` — remains in the module, so the
claim that none remain after any full run is false. -/
theorem C2_cleanup_counterexample :
    LowerInterrupts C2cexM = some C2cexR ∧
    C2cexR.module.registerUses ≠ [] ∧
    C2cexR.module.useUses ≠ [] ∧
    C2cexR.module.globals.map GlobalVar.typeName =
      ["runtime/interrupt.handle"] := by
  refine ⟨by decide, by decide, by decide, by decide⟩

/-- C2, witness: an error-free run on `C2wM` leaves no `Register` uses and
no `use` uses, and its only remaining descriptor global (`gB`) was skipped
as a harmless duplicate. -/
theorem C2_cleanup_witness :
    LowerInterrupts C2wM = some C2wR ∧ C2wR.errs = [] ∧
    C2wR.module.registerUses = [] ∧ C2wR.module.useUses = [] ∧
    ("gB", Outcome.duplicateSkip) ∈ C2wR.outcomes :=
  ⟨by decide, by decide,
   (C2_cleanup C2wM C2wR (by decide) (by decide)).1,
   (C2_cleanup C2wM C2wR (by decide) (by decide)).2.1,
   (C2_cleanup C2wM C2wR (by decide) (by decide)).2.2 gB (by decide)
     (by decide)⟩

/-- C3, witness: a second descriptor identical to the one `C3fn` was
synthesized from is skipped as a harmless duplicate, with no error. -/
theorem C3_redeclaration_witness :
    processHandler [] [((5 : Int), "isrX")] false "thumbv7m" C3st C3g =
      some { C3st with
               kept := C3st.kept ++ [C3g],
               outcomes := C3st.outcomes ++
                 [(C3g.name, Outcome.duplicateSkip)] } :=
  ((C3_redeclaration [] [((5 : Int), "isrX")] false "thumbv7m" C3st "gC3"
      "gC3loc" [] IVal.cNull "hf" 5 "isrX" C3g (by decide) (by decide)
      (by decide) (by decide)).1 C3fn (by decide)).1 (by decide) (by decide)
    (by decide)

/-- C8, witness: descriptor `C8g` (interrupt 6, no name-table entry) is
skipped with the unresolved-number diagnostic without software vectoring,
and with software vectoring it is synthesized under the placeholder name
and recorded in the software-vector table. -/
theorem C8_unresolvedName_witness :
    (processHandler [] [] false "thumbv7m" emptyBSt C8g =
      some (skipErr emptyBSt C8g
        ⟨"gC8loc",
         "cannot find interrupt name for number " ++ toString (6 : Int)⟩)) ∧
    (processHandler [] [] true "thumbv7m" emptyBSt C8g =
      some (synthFresh emptyBSt C8g 6 (placeholderName 6) true
        (IVal.cFunc "hf8") IVal.cNull "thumbv7m")) ∧
    (synthFresh emptyBSt C8g 6 (placeholderName 6) true (IVal.cFunc "hf8")
      IVal.cNull "thumbv7m").sv = (6, placeholderName 6) :: emptyBSt.sv :=
  ⟨(C8_unresolvedName [] [] "thumbv7m" emptyBSt "gC8" "gC8loc" [] IVal.cNull
      "hf8" 6 C8g (by decide) (by decide) (by decide)).1,
   ((C8_unresolvedName [] [] "thumbv7m" emptyBSt "gC8" "gC8loc" [] IVal.cNull
      "hf8" 6 C8g (by decide) (by decide) (by decide)).2 (by decide)).1,
   ((C8_unresolvedName [] [] "thumbv7m" emptyBSt "gC8" "gC8loc" [] IVal.cNull
      "hf8" 6 C8g (by decide) (by decide) (by decide)).2 (by decide)).2.1⟩

/-- C10, witness: descriptor `C10g` carries a non-`ptrtoint` use; the pass
records the internal error yet still erases the descriptor (keeps nothing)
and keeps the synthesized handler state. -/
theorem C10_useRewriteNoAtomicity_witness :
    (processHandler [] [((7 : Int), "isrY")] false "thumbv7m" emptyBSt C10g =
      some (synthFresh emptyBSt C10g 7 "isrY" false (IVal.cFunc "hf10")
        IVal.cNull "thumbv7m")) ∧
    ((⟨"gC10loc", "internal error: expected a ptrtoint"⟩ : Err) ∈
      (synthFresh emptyBSt C10g 7 "isrY" false (IVal.cFunc "hf10") IVal.cNull
        "thumbv7m").errs) ∧
    (synthFresh emptyBSt C10g 7 "isrY" false (IVal.cFunc "hf10") IVal.cNull
      "thumbv7m").kept = emptyBSt.kept ∧
    (C10g.name, Outcome.synthesized) ∈
      (synthFresh emptyBSt C10g 7 "isrY" false (IVal.cFunc "hf10") IVal.cNull
        "thumbv7m").outcomes :=
  ⟨(C10_useRewriteNoAtomicity [] [((7 : Int), "isrY")] false "thumbv7m"
      emptyBSt "gC10" "gC10loc" [IUse.other 9] IVal.cNull "hf10" 7 "isrY" 9
      C10g (by decide) (by decide) (by decide) (by decide) (by decide)
      (by decide)).1,
   (C10_useRewriteNoAtomicity [] [((7 : Int), "isrY")] false "thumbv7m"
      emptyBSt "gC10" "gC10loc" [IUse.other 9] IVal.cNull "hf10" 7 "isrY" 9
      C10g (by decide) (by decide) (by decide) (by decide) (by decide)
      (by decide)).2.1,
   (C10_useRewriteNoAtomicity [] [((7 : Int), "isrY")] false "thumbv7m"
      emptyBSt "gC10" "gC10loc" [IUse.other 9] IVal.cNull "hf10" 7 "isrY" 9
      C10g (by decide) (by decide) (by decide) (by decide) (by decide)
      (by decide)).2.2.1,
   (C10_useRewriteNoAtomicity [] [((7 : Int), "isrY")] false "thumbv7m"
      emptyBSt "gC10" "gC10loc" [IUse.other 9] IVal.cNull "hf10" 7 "isrY" 9
      C10g (by decide) (by decide) (by decide) (by decide) (by decide)
      (by decide)).2.2.2.1⟩

end TinyGoSpec
